import Mathlib

/-!
Falcon assembler backend: fixup registry, value adjuster and applier.

A shallow embedding of `llvm/lib/Target/Falcon/MCTargetDesc/FalconAsmBackend.cpp`.

Conventions of the embedding:

* machine integers are natural numbers, reduced modulo `2 ^ 32` (`unsigned`,
  `uint32_t`) or `2 ^ 64` (`uint64_t`) where the C++ arithmetic can wrap;
* a byte of the data buffer is a natural number; a store into the buffer keeps
  the low eight bits (`% 256`);
* `assert`, `llvm_unreachable` and `MCContext::reportFatalError` end the call;
  each is a separate constructor of `Outcome`, so the way a call ended can be
  told apart;
* a store outside the buffer is undefined behaviour in C++; the embedding stops
  there with `Outcome.outOfBounds`.
-/

/-- Source location attached to a fixup (`SMLoc`). -/
abbrev SMLoc := Nat

/-- The diagnostic context (`MCContext`); only its presence is looked at. -/
inductive MCContext where
  | mk : MCContext
  deriving DecidableEq, Repr

/-- How a call ends: normally with a result, or through one of the aborting
paths used in the source file. -/
inductive Outcome (α : Type) where
  /-- normal return -/
  | ok (a : α) : Outcome α
  /-- `Ctx->reportFatalError(Loc, Msg)`: a located diagnostic -/
  | fatalError (Loc : SMLoc) (Msg : String) : Outcome α
  /-- `llvm_unreachable(Msg)`: internal-consistency abort -/
  | unreachable (Msg : String) : Outcome α
  /-- a failed `assert(... && Msg)` -/
  | assertion (Msg : String) : Outcome α
  /-- a store at an index outside the buffer -/
  | outOfBounds (Index : Nat) : Outcome α
  deriving DecidableEq, Repr

/-- Target independent description for a fixup kind (`MCFixupKindInfo`). -/
structure MCFixupKindInfo where
  Name : String
  TargetOffset : Nat
  TargetSize : Nat
  Flags : Nat
  deriving DecidableEq, Repr

/-- A fixup (`MCFixup`): the kind, the byte offset inside the fragment
(`uint32_t`) and the source location. -/
structure MCFixup where
  Kind : Nat
  Offset : Nat
  Loc : SMLoc
  deriving DecidableEq, Repr

/-- The parts of the host framework the backend is compiled against: the value
of the enumerator `FirstTargetFixupKind` and the built-in table behind
`MCAsmBackend::getFixupKindInfo`. Neither is defined in the backend, so both are
parameters of the development. -/
structure Host where
  FirstTargetFixupKind : Nat
  builtinFixupKindInfo : Nat → Outcome MCFixupKindInfo

/-- Modelled from the spec: `Falcon::NumTargetFixupKinds` of
`FalconFixupKinds.h`, which is not among the sources. The spec says the core
"defines one concrete kind, an 8-bit unsigned immediate"; the table `Infos`
declared with this size has one initialiser. -/
def Falcon.NumTargetFixupKinds : Nat := 1

/-- Modelled from the spec: `Falcon::fixup_u8` of `FalconFixupKinds.h`, which is
not among the sources. The spec says "index i in the table must equal (kind
value - first-target-kind value)"; `fixup_u8` is the entry at index 0. -/
def Falcon.fixup_u8 (H : Host) : Nat := H.FirstTargetFixupKind

/-- Modelled from the spec: `isUIntN` of `llvm/Support/MathExtras.h`, which is
not among the sources. The spec says the value must "fit in an unsigned field
of that width". -/
def isUIntN (N x : Nat) : Bool := decide (x < 2 ^ N)

/-- Modelled from the spec: `maxUIntN` of `llvm/Support/MathExtras.h`, which is
not among the sources. The spec says "the max representable value is reported
as 2^width - 1". -/
def maxUIntN (N : Nat) : Nat := 2 ^ N - 1

/-- Conversion of a `uint64_t` to `int64_t` (two's complement), as done by
`int64_t Max = maxUIntN(Width);`. -/
def toInt64 (x : Nat) : Int :=
  if x % 2 ^ 64 < 2 ^ 63 then ((x % 2 ^ 64 : Nat) : Int)
  else ((x % 2 ^ 64 : Nat) : Int) - 2 ^ 64

/-- The text built by `assertUnsignedWidth` when the value does not fit:
`"out of range " + Description + " (expected an integer in the range 0 to " +
std::to_string(Max) + ")"`. -/
def adjust.diagnostic (Width : Nat) (Description : String) : String :=
  let Diagnostic := "out of range " ++ Description
  let Max : Int := toInt64 (maxUIntN Width)
  Diagnostic ++ (" (expected an integer in the range 0 to " ++ toString Max ++ ")")

/-- Embedding of `adjust::assertUnsignedWidth`: nothing happens when
`isUIntN(Width, Value)`; otherwise the diagnostic goes to
`Ctx->reportFatalError` with the location of the fixup when a context is given,
and to `llvm_unreachable` when `Ctx` is null. -/
def adjust.assertUnsignedWidth (Width Value : Nat) (Description : String)
    (Fixup : MCFixup) (Ctx : Option MCContext) : Outcome Unit :=
  if !isUIntN Width Value then
    match Ctx with
    | some _ => Outcome.fatalError Fixup.Loc (adjust.diagnostic Width Description)
    | none => Outcome.unreachable (adjust.diagnostic Width Description)
  else Outcome.ok ()

/-- Modelled from the spec: `FalconAsmBackend::getNumFixupKinds` of
`FalconAsmBackend.h`, which is not among the sources. The spec calls it "the
declared target kind count". -/
def FalconAsmBackend.getNumFixupKinds : Nat := Falcon.NumTargetFixupKinds

/-- The static table `Infos` of `getFixupKindInfo`:
name, offset, bits, flags. -/
def FalconAsmBackend.Infos : List MCFixupKindInfo :=
  [{ Name := "fixup_u8", TargetOffset := 0, TargetSize := 8, Flags := 0 }]

/-- Embedding of `FalconAsmBackend::getFixupKindInfo`. -/
def FalconAsmBackend.getFixupKindInfo (H : Host) (Kind : Nat) : Outcome MCFixupKindInfo :=
  if Kind < H.FirstTargetFixupKind then
    H.builtinFixupKindInfo Kind
  else if (Kind - H.FirstTargetFixupKind) % 2 ^ 32 < FalconAsmBackend.getNumFixupKinds then
    match FalconAsmBackend.Infos[Kind - H.FirstTargetFixupKind]? with
    | some Info => Outcome.ok Info
    | none => Outcome.outOfBounds (Kind - H.FirstTargetFixupKind)
  else Outcome.assertion "Invalid kind!"

/-- Embedding of `FalconAsmBackend::adjustFixupValue`. `Value` is passed by
reference in the source; the result is its content on return. -/
def FalconAsmBackend.adjustFixupValue (H : Host) (Fixup : MCFixup) (Value : Nat)
    (Ctx : Option MCContext) : Outcome Nat :=
  match FalconAsmBackend.getFixupKindInfo H Fixup.Kind with
  | Outcome.ok _ =>
    let Kind := Fixup.Kind
    if Kind = Falcon.fixup_u8 H then
      match adjust.assertUnsignedWidth 8 Value "immediate" Fixup Ctx with
      | Outcome.ok _ => Outcome.ok Value
      | Outcome.fatalError l m => Outcome.fatalError l m
      | Outcome.unreachable m => Outcome.unreachable m
      | Outcome.assertion m => Outcome.assertion m
      | Outcome.outOfBounds i => Outcome.outOfBounds i
    else Outcome.unreachable "unhandled fixup"
  | Outcome.fatalError l m => Outcome.fatalError l m
  | Outcome.unreachable m => Outcome.unreachable m
  | Outcome.assertion m => Outcome.assertion m
  | Outcome.outOfBounds i => Outcome.outOfBounds i

/-- The buffer and the way the call ended: `applyFixup` returns nothing and
works on `Data` in place, so its result is the content of `Data` when the call
returns or aborts. -/
structure Applied where
  Data : List Nat
  status : Outcome Unit
  deriving DecidableEq, Repr

/-- The loop `for (unsigned i = 0; i < NumBytes; ++i)` of `applyFixup`, started
at `i` with `n` rounds left: `mask = (Value >> (i * 8)) & 0xFF` and
`Data[Offset + i] |= mask`, the index computed in `unsigned`. -/
def FalconAsmBackend.patchLoop (Value Offset : Nat) : Nat → Nat → List Nat → Applied
  | 0, _, Data => { Data := Data, status := Outcome.ok () }
  | n + 1, i, Data =>
    let mask := ((Value >>> (i * 8)) &&& 0xFF) % 2 ^ 8
    let idx := (Offset + i) % 2 ^ 32
    if idx < Data.length then
      FalconAsmBackend.patchLoop Value Offset n (i + 1)
        (Data.set idx ((Data.getD idx 0 ||| mask) % 256))
    else { Data := Data, status := Outcome.outOfBounds idx }

/-- The number of bytes `applyFixup` touches:
`NumBits = Info.TargetSize + Info.TargetOffset` and
`NumBytes = (NumBits / 8) + ((NumBits % 8) == 0 ? 0 : 1)`, in `unsigned`. -/
def FalconAsmBackend.NumBytes (Info : MCFixupKindInfo) : Nat :=
  let NumBits := (Info.TargetSize + Info.TargetOffset) % 2 ^ 32
  (NumBits / 8) + (if NumBits % 8 = 0 then 0 else 1)

/-- The body of `applyFixup` after the look-up of `Info`: byte count, shift,
bounds assertion and the loop. -/
def FalconAsmBackend.patch (Info : MCFixupKindInfo) (Fixup : MCFixup) (Data : List Nat)
    (Value : Nat) : Applied :=
  let NumBytes := FalconAsmBackend.NumBytes Info
  let Value := (Value <<< Info.TargetOffset) % 2 ^ 64
  let Offset := Fixup.Offset % 2 ^ 32
  if (Offset + NumBytes) % 2 ^ 32 ≤ Data.length then
    FalconAsmBackend.patchLoop Value Offset NumBytes 0 Data
  else { Data := Data, status := Outcome.assertion "Invalid fixup offset!" }

/-- Embedding of `FalconAsmBackend::applyFixup`. The context handed to
`adjustFixupValue` is `&Asm.getContext()`, never null. -/
def FalconAsmBackend.applyFixup (H : Host) (Fixup : MCFixup) (Data : List Nat)
    (Value : Nat) : Applied :=
  match FalconAsmBackend.adjustFixupValue H Fixup Value (some MCContext.mk) with
  | Outcome.ok Value =>
    if Value = 0 then { Data := Data, status := Outcome.ok () }
    else
      match FalconAsmBackend.getFixupKindInfo H Fixup.Kind with
      | Outcome.ok Info => FalconAsmBackend.patch Info Fixup Data Value
      | Outcome.fatalError l m => { Data := Data, status := Outcome.fatalError l m }
      | Outcome.unreachable m => { Data := Data, status := Outcome.unreachable m }
      | Outcome.assertion m => { Data := Data, status := Outcome.assertion m }
      | Outcome.outOfBounds i => { Data := Data, status := Outcome.outOfBounds i }
  | Outcome.fatalError l m => { Data := Data, status := Outcome.fatalError l m }
  | Outcome.unreachable m => { Data := Data, status := Outcome.unreachable m }
  | Outcome.assertion m => { Data := Data, status := Outcome.assertion m }
  | Outcome.outOfBounds i => { Data := Data, status := Outcome.outOfBounds i }

/-- A host used for concrete evaluations: `FirstTargetFixupKind = 128` and a
built-in table that knows the data fixups `FK_Data_1` .. `FK_Data_8`
(kinds 1 .. 4) after `FK_NONE` (kind 0) and asserts on any other kind. -/
def sampleHost : Host where
  FirstTargetFixupKind := 128
  builtinFixupKindInfo := fun Kind =>
    if Kind = 0 then Outcome.ok { Name := "FK_NONE", TargetOffset := 0, TargetSize := 0, Flags := 0 }
    else if Kind = 1 then Outcome.ok { Name := "FK_Data_1", TargetOffset := 0, TargetSize := 8, Flags := 0 }
    else if Kind = 2 then Outcome.ok { Name := "FK_Data_2", TargetOffset := 0, TargetSize := 16, Flags := 0 }
    else if Kind = 3 then Outcome.ok { Name := "FK_Data_4", TargetOffset := 0, TargetSize := 32, Flags := 0 }
    else if Kind = 4 then Outcome.ok { Name := "FK_Data_8", TargetOffset := 0, TargetSize := 64, Flags := 0 }
    else Outcome.assertion "Unknown fixup kind"

/-- The value a fixup refers to (`MCValue`): `SymA - SymB + Cst`. -/
structure MCValue where
  SymA : Option Nat
  SymB : Option Nat
  Cst : Int
  deriving DecidableEq, Repr

set_option linter.unusedVariables false in
/-- Embedding of `FalconAsmBackend::writeNopData`. The stream `OS` is the list
of bytes written to it so far; the result is the returned flag together with
the stream after the call. -/
def FalconAsmBackend.writeNopData (OS : List Nat) (Count : Nat) : Bool × List Nat :=
  (false, OS)

set_option linter.unusedVariables false in
/-- Embedding of `FalconAsmBackend::shouldForceRelocation`: a `switch` on
`(unsigned)Fixup.getKind()` whose only label is `default`. -/
def FalconAsmBackend.shouldForceRelocation (Fixup : MCFixup) (Target : MCValue) : Bool :=
  match Fixup.Kind % 2 ^ 32 with
  | _ => false

/-- The variant of `applyFixup` the spec compares the early return with: the same
steps, but the return on `Value == 0` is left out, so the shift-and-OR loop
runs for the value 0 as well. -/
def FalconAsmBackend.applyFixupWithoutEarlyReturn (H : Host) (Fixup : MCFixup)
    (Data : List Nat) (Value : Nat) : Applied :=
  match FalconAsmBackend.adjustFixupValue H Fixup Value (some MCContext.mk) with
  | Outcome.ok Value =>
    match FalconAsmBackend.getFixupKindInfo H Fixup.Kind with
    | Outcome.ok Info => FalconAsmBackend.patch Info Fixup Data Value
    | Outcome.fatalError l m => { Data := Data, status := Outcome.fatalError l m }
    | Outcome.unreachable m => { Data := Data, status := Outcome.unreachable m }
    | Outcome.assertion m => { Data := Data, status := Outcome.assertion m }
    | Outcome.outOfBounds i => { Data := Data, status := Outcome.outOfBounds i }
  | Outcome.fatalError l m => { Data := Data, status := Outcome.fatalError l m }
  | Outcome.unreachable m => { Data := Data, status := Outcome.unreachable m }
  | Outcome.assertion m => { Data := Data, status := Outcome.assertion m }
  | Outcome.outOfBounds i => { Data := Data, status := Outcome.outOfBounds i }

/-- The little-endian integer formed by the `n` bytes of `Data` that start at
index `o`: byte `o` is the least significant one. -/
def littleEndian (Data : List Nat) : Nat → Nat → Nat
  | _, 0 => 0
  | o, n + 1 => Data.getD o 0 + 256 * littleEndian Data (o + 1) n

/-! ## Auxiliary facts -/

/-- The text of the range diagnostic for the 8-bit immediate. -/
theorem adjust.diagnostic_u8 :
    adjust.diagnostic 8 "immediate" =
      "out of range immediate (expected an integer in the range 0 to 255)" := by
  rfl

/-- The registry entry of `fixup_u8`. -/
theorem FalconAsmBackend.getFixupKindInfo_u8 (H : Host) :
    FalconAsmBackend.getFixupKindInfo H (Falcon.fixup_u8 H) =
      Outcome.ok { Name := "fixup_u8", TargetOffset := 0, TargetSize := 8, Flags := 0 } := by
  simp [FalconAsmBackend.getFixupKindInfo, Falcon.fixup_u8, FalconAsmBackend.getNumFixupKinds,
    Falcon.NumTargetFixupKinds, FalconAsmBackend.Infos]

/-- The width check on an accepted value. -/
theorem adjust.assertUnsignedWidth_fits (Width Value : Nat) (Description : String)
    (Fixup : MCFixup) (Ctx : Option MCContext) (h : Value < 2 ^ Width) :
    adjust.assertUnsignedWidth Width Value Description Fixup Ctx = Outcome.ok () := by
  simp [adjust.assertUnsignedWidth, isUIntN, h]

/-- The width check on a rejected value, with a context. -/
theorem adjust.assertUnsignedWidth_some (Width Value : Nat) (Description : String)
    (Fixup : MCFixup) (c : MCContext) (h : 2 ^ Width ≤ Value) :
    adjust.assertUnsignedWidth Width Value Description Fixup (some c) =
      Outcome.fatalError Fixup.Loc (adjust.diagnostic Width Description) := by
  simp [adjust.assertUnsignedWidth, isUIntN, Nat.not_lt.mpr h]

/-- The width check on a rejected value, without a context. -/
theorem adjust.assertUnsignedWidth_none (Width Value : Nat) (Description : String)
    (Fixup : MCFixup) (h : 2 ^ Width ≤ Value) :
    adjust.assertUnsignedWidth Width Value Description Fixup none =
      Outcome.unreachable (adjust.diagnostic Width Description) := by
  simp [adjust.assertUnsignedWidth, isUIntN, Nat.not_lt.mpr h]

/-- The adjuster on `fixup_u8` with an accepted value. -/
theorem FalconAsmBackend.adjustFixupValue_u8_fits (H : Host) (o : Nat) (l : SMLoc)
    (v : Nat) (Ctx : Option MCContext) (h : v ≤ 255) :
    FalconAsmBackend.adjustFixupValue H ⟨Falcon.fixup_u8 H, o, l⟩ v Ctx = Outcome.ok v := by
  have h8 : v < 2 ^ 8 := by omega
  simp [FalconAsmBackend.adjustFixupValue, FalconAsmBackend.getFixupKindInfo_u8,
    adjust.assertUnsignedWidth_fits _ _ _ _ _ h8]

/-- The adjuster on `fixup_u8` with a rejected value and a context. -/
theorem FalconAsmBackend.adjustFixupValue_u8_some (H : Host) (o : Nat) (l : SMLoc)
    (v : Nat) (c : MCContext) (h : 255 < v) :
    FalconAsmBackend.adjustFixupValue H ⟨Falcon.fixup_u8 H, o, l⟩ v (some c) =
      Outcome.fatalError l "out of range immediate (expected an integer in the range 0 to 255)" := by
  have h8 : 2 ^ 8 ≤ v := by omega
  simp [FalconAsmBackend.adjustFixupValue, FalconAsmBackend.getFixupKindInfo_u8,
    adjust.assertUnsignedWidth_some _ _ _ _ _ h8, adjust.diagnostic_u8]

/-- The adjuster on `fixup_u8` with a rejected value and no context. -/
theorem FalconAsmBackend.adjustFixupValue_u8_none (H : Host) (o : Nat) (l : SMLoc)
    (v : Nat) (h : 255 < v) :
    FalconAsmBackend.adjustFixupValue H ⟨Falcon.fixup_u8 H, o, l⟩ v none =
      Outcome.unreachable "out of range immediate (expected an integer in the range 0 to 255)" := by
  have h8 : 2 ^ 8 ≤ v := by omega
  simp [FalconAsmBackend.adjustFixupValue, FalconAsmBackend.getFixupKindInfo_u8,
    adjust.assertUnsignedWidth_none _ _ _ _ h8, adjust.diagnostic_u8]

/-- The adjuster never changes the value it accepts. -/
theorem FalconAsmBackend.adjustFixupValue_ok (H : Host) (Fixup : MCFixup) (v r : Nat)
    (Ctx : Option MCContext)
    (h : FalconAsmBackend.adjustFixupValue H Fixup v Ctx = Outcome.ok r) : r = v := by
  unfold FalconAsmBackend.adjustFixupValue at h
  split at h
  · simp only at h
    split at h
    · split at h <;> simp_all
    · simp at h
  all_goals simp at h

/-- The byte count of the `fixup_u8` entry. -/
theorem FalconAsmBackend.NumBytes_u8 :
    FalconAsmBackend.NumBytes { Name := "fixup_u8", TargetOffset := 0, TargetSize := 8, Flags := 0 }
      = 1 := by
  decide

/-- The slice of a value below 256 that the loop takes in its first round. -/
theorem FalconAsmBackend.mask_u8 (v : Nat) (hv : v ≤ 255) :
    (((v <<< 0) % 2 ^ 64) >>> (0 * 8) &&& 0xFF) % 2 ^ 8 = v := by
  have h1 : (v <<< 0) % 2 ^ 64 = v := by
    simp only [Nat.shiftLeft_zero]
    exact Nat.mod_eq_of_lt (by omega)
  have h2 : (255 : Nat) = 2 ^ 8 - 1 := by norm_num
  rw [h1, Nat.zero_mul, Nat.shiftRight_zero, h2, Nat.and_pow_two_sub_one_eq_mod]
  rw [Nat.mod_mod]
  exact Nat.mod_eq_of_lt (by omega)

/-- The applier on `fixup_u8` with a non-zero accepted value and an offset inside
the buffer: one byte is OR-ed. -/
theorem FalconAsmBackend.applyFixup_u8_inside (H : Host) (o : Nat) (l : SMLoc)
    (Data : List Nat) (v : Nat) (ho32 : o < 2 ^ 32) (ho : o < Data.length)
    (hv1 : 1 ≤ v) (hv : v ≤ 255) :
    FalconAsmBackend.applyFixup H ⟨Falcon.fixup_u8 H, o, l⟩ Data v =
      { Data := Data.set o ((Data.getD o 0 ||| v) % 256), status := Outcome.ok () } := by
  have hne : v ≠ 0 := by omega
  have hmod : o % 2 ^ 32 = o := Nat.mod_eq_of_lt ho32
  have hle : (o + 1) % 2 ^ 32 ≤ Data.length :=
    Nat.le_trans (Nat.mod_le _ _) ho
  have hm := FalconAsmBackend.mask_u8 v hv
  unfold FalconAsmBackend.applyFixup
  rw [FalconAsmBackend.adjustFixupValue_u8_fits H o l v _ hv]
  simp only [hne, if_false, FalconAsmBackend.getFixupKindInfo_u8, FalconAsmBackend.patch,
    FalconAsmBackend.NumBytes_u8, hmod, hle, if_true, FalconAsmBackend.patchLoop,
    Nat.add_zero, ho, hm]

/-- The applier on `fixup_u8` with a non-zero accepted value and an offset whose
successor, computed in `unsigned`, lies beyond the buffer: the bounds assertion
fires. -/
theorem FalconAsmBackend.applyFixup_u8_beyond (H : Host) (o : Nat) (l : SMLoc)
    (Data : List Nat) (v : Nat) (ho32 : o + 1 < 2 ^ 32) (ho : Data.length < o + 1)
    (hv1 : 1 ≤ v) (hv : v ≤ 255) :
    FalconAsmBackend.applyFixup H ⟨Falcon.fixup_u8 H, o, l⟩ Data v =
      { Data := Data, status := Outcome.assertion "Invalid fixup offset!" } := by
  have hne : v ≠ 0 := by omega
  have hmod : o % 2 ^ 32 = o := Nat.mod_eq_of_lt (by omega)
  have hmod1 : (o + 1) % 2 ^ 32 = o + 1 := Nat.mod_eq_of_lt ho32
  have hle : ¬ (o + 1 ≤ Data.length) := by omega
  unfold FalconAsmBackend.applyFixup
  rw [FalconAsmBackend.adjustFixupValue_u8_fits H o l v _ hv]
  simp only [hne, if_false, FalconAsmBackend.getFixupKindInfo_u8, FalconAsmBackend.patch,
    FalconAsmBackend.NumBytes_u8, hmod, hmod1, hle]

/-- The applier on `fixup_u8` with the value zero returns at once. -/
theorem FalconAsmBackend.applyFixup_u8_zero (H : Host) (o : Nat) (l : SMLoc)
    (Data : List Nat) :
    FalconAsmBackend.applyFixup H ⟨Falcon.fixup_u8 H, o, l⟩ Data 0 =
      { Data := Data, status := Outcome.ok () } := by
  unfold FalconAsmBackend.applyFixup
  rw [FalconAsmBackend.adjustFixupValue_u8_fits H o l 0 _ (by omega)]
  simp

/-- A byte of a well-formed buffer, read with a default, is below 256. -/
theorem FalconAsmBackend.getD_lt (Data : List Nat) (hb : ∀ b ∈ Data, b < 256) (j : Nat) :
    Data.getD j 0 < 256 := by
  rcases Nat.lt_or_ge j Data.length with h | h
  · rw [List.getD_eq_getElem _ _ h]
    exact hb _ (List.getElem_mem h)
  · rw [List.getD_eq_default _ _ h]
    omega

/-- OR of two bytes is a byte, so the store keeps every bit of it. -/
theorem FalconAsmBackend.or_mod_byte (b v : Nat) (hb : b < 256) (hv : v ≤ 255) :
    (b ||| v) % 256 = b ||| v := by
  have h1 : b < 2 ^ 8 := by omega
  have h2 : v < 2 ^ 8 := by omega
  have h3 := Nat.or_lt_two_pow h1 h2
  exact Nat.mod_eq_of_lt (by omega)

/-! ## The claims -/

/-- Claim C1: for `fixup_u8` and every raw value `v`, `adjustFixupValue` succeeds
exactly when `v` fits in an unsigned field of the width the registry declares
for the kind, that is `v <= 255`; on success the value comes back unmodified; on
failure the diagnostic reports the maximum 255 (through `reportFatalError` at
the location of the fixup when a context is given, through `llvm_unreachable`
otherwise). `255` is accepted and `256` is rejected. -/
theorem C1_adjust_u8_width (H : Host) (o : Nat) (l : SMLoc) (v : Nat)
    (Ctx : Option MCContext) :
    ∃ Info, FalconAsmBackend.getFixupKindInfo H (Falcon.fixup_u8 H) = Outcome.ok Info ∧
      maxUIntN Info.TargetSize = 255 ∧
      ((∃ r, FalconAsmBackend.adjustFixupValue H ⟨Falcon.fixup_u8 H, o, l⟩ v Ctx = Outcome.ok r)
        ↔ v < 2 ^ Info.TargetSize) ∧
      ((∃ r, FalconAsmBackend.adjustFixupValue H ⟨Falcon.fixup_u8 H, o, l⟩ v Ctx = Outcome.ok r)
        ↔ v ≤ 255) ∧
      (v ≤ 255 →
        FalconAsmBackend.adjustFixupValue H ⟨Falcon.fixup_u8 H, o, l⟩ v Ctx = Outcome.ok v) ∧
      (255 < v → ∀ c : MCContext,
        FalconAsmBackend.adjustFixupValue H ⟨Falcon.fixup_u8 H, o, l⟩ v (some c) =
          Outcome.fatalError l
            "out of range immediate (expected an integer in the range 0 to 255)") ∧
      (255 < v →
        FalconAsmBackend.adjustFixupValue H ⟨Falcon.fixup_u8 H, o, l⟩ v none =
          Outcome.unreachable
            "out of range immediate (expected an integer in the range 0 to 255)") ∧
      FalconAsmBackend.adjustFixupValue H ⟨Falcon.fixup_u8 H, o, l⟩ 255 Ctx = Outcome.ok 255 ∧
      FalconAsmBackend.adjustFixupValue H ⟨Falcon.fixup_u8 H, o, l⟩ 256 (some MCContext.mk) =
        Outcome.fatalError l
          "out of range immediate (expected an integer in the range 0 to 255)" := by
  have hiff : (∃ r, FalconAsmBackend.adjustFixupValue H ⟨Falcon.fixup_u8 H, o, l⟩ v Ctx
      = Outcome.ok r) ↔ v ≤ 255 := by
    constructor
    · rintro ⟨r, hr⟩
      by_contra hc
      have hgt : 255 < v := by omega
      cases Ctx with
      | none =>
        rw [FalconAsmBackend.adjustFixupValue_u8_none H o l v hgt] at hr
        cases hr
      | some c =>
        rw [FalconAsmBackend.adjustFixupValue_u8_some H o l v c hgt] at hr
        cases hr
    · intro hv
      exact ⟨v, FalconAsmBackend.adjustFixupValue_u8_fits H o l v Ctx hv⟩
  refine ⟨_, FalconAsmBackend.getFixupKindInfo_u8 H, by decide, ?_, hiff, ?_, ?_, ?_, ?_, ?_⟩
  · rw [hiff]
    show v ≤ 255 ↔ v < 2 ^ 8
    omega
  · exact FalconAsmBackend.adjustFixupValue_u8_fits H o l v Ctx
  · intro hgt c
    exact FalconAsmBackend.adjustFixupValue_u8_some H o l v c hgt
  · exact FalconAsmBackend.adjustFixupValue_u8_none H o l v
  · exact FalconAsmBackend.adjustFixupValue_u8_fits H o l 255 Ctx (by omega)
  · exact FalconAsmBackend.adjustFixupValue_u8_some H o l 256 _ (by omega)

/-- Claim C2: for a buffer of bytes, an offset `o` with `o + 1 <= length` and a
value `1 <= v <= 255`, `applyFixup` with a `fixup_u8` fixup at `o` returns
normally and leaves byte `o` equal to the old byte OR `v`. On a buffer filled
with `0x00` the value `0x3C` at offset 0 gives `0x3C`; on a buffer filled with
`0x01` it gives `0x3D`. -/
theorem C2_apply_u8_or (H : Host) (o : Nat) (l : SMLoc) (Data : List Nat) (v : Nat)
    (hb : ∀ b ∈ Data, b < 256) (ho32 : o < 2 ^ 32) (ho : o + 1 ≤ Data.length)
    (hv1 : 1 ≤ v) (hv : v ≤ 255) :
    (FalconAsmBackend.applyFixup H ⟨Falcon.fixup_u8 H, o, l⟩ Data v).status = Outcome.ok () ∧
    (FalconAsmBackend.applyFixup H ⟨Falcon.fixup_u8 H, o, l⟩ Data v).Data[o]? =
      some (Data.getD o 0 ||| v) ∧
    (∀ n : Nat,
      (FalconAsmBackend.applyFixup H ⟨Falcon.fixup_u8 H, 0, l⟩ (List.replicate (n + 1) 0x00)
        0x3C).Data = 0x3C :: List.replicate n 0x00) ∧
    (∀ n : Nat,
      (FalconAsmBackend.applyFixup H ⟨Falcon.fixup_u8 H, 0, l⟩ (List.replicate (n + 1) 0x01)
        0x3C).Data = 0x3D :: List.replicate n 0x01) := by
  have hlt : o < Data.length := by omega
  rw [FalconAsmBackend.applyFixup_u8_inside H o l Data v ho32 hlt hv1 hv]
  refine ⟨rfl, ?_, ?_, ?_⟩
  · simp only [List.getElem?_set_self hlt]
    rw [FalconAsmBackend.or_mod_byte _ _ (FalconAsmBackend.getD_lt Data hb o) hv]
  · intro n
    rw [FalconAsmBackend.applyFixup_u8_inside H 0 l _ 0x3C (by norm_num) (by simp)
      (by norm_num) (by norm_num)]
    simp [List.replicate_succ]
  · intro n
    rw [FalconAsmBackend.applyFixup_u8_inside H 0 l _ 0x3C (by norm_num) (by simp)
      (by norm_num) (by norm_num)]
    simp [List.replicate_succ]

/-- Witness of C2: value `0x3C` at offset 1 of the buffer `[0x00, 0x01, 0x80]`. -/
theorem C2_apply_u8_or_witness :
    (FalconAsmBackend.applyFixup sampleHost ⟨Falcon.fixup_u8 sampleHost, 1, 7⟩
        [0x00, 0x01, 0x80] 0x3C).status = Outcome.ok () ∧
    (FalconAsmBackend.applyFixup sampleHost ⟨Falcon.fixup_u8 sampleHost, 1, 7⟩
        [0x00, 0x01, 0x80] 0x3C).Data[1]? = some ([0x00, 0x01, 0x80].getD 1 0 ||| 0x3C) ∧
    (∀ n : Nat,
      (FalconAsmBackend.applyFixup sampleHost ⟨Falcon.fixup_u8 sampleHost, 0, 7⟩
        (List.replicate (n + 1) 0x00) 0x3C).Data = 0x3C :: List.replicate n 0x00) ∧
    (∀ n : Nat,
      (FalconAsmBackend.applyFixup sampleHost ⟨Falcon.fixup_u8 sampleHost, 0, 7⟩
        (List.replicate (n + 1) 0x01) 0x3C).Data = 0x3D :: List.replicate n 0x01) :=
  C2_apply_u8_or sampleHost 1 7 [0x00, 0x01, 0x80] 0x3C (by decide) (by decide) (by decide)
    (by decide) (by decide)

/-- Claim C3: for a buffer of bytes, a `fixup_u8` fixup whose one-byte span lies
inside the buffer and a value accepted by the adjuster (`v <= 255`), `applyFixup`
returns normally, keeps the length of the buffer, keeps every byte at an index
outside `[byteOffset, byteOffset + NumBytes)`, and inside the span changes no
bit outside the declared field (bit positions `TargetOffset` ..
`TargetOffset + TargetSize - 1` of the registry entry). -/
theorem C3_apply_u8_frame (H : Host) (o : Nat) (l : SMLoc) (Data : List Nat) (v : Nat)
    (hb : ∀ b ∈ Data, b < 256) (ho32 : o < 2 ^ 32) (ho : o + 1 ≤ Data.length)
    (hv : v ≤ 255) :
    ∃ Info, FalconAsmBackend.getFixupKindInfo H (Falcon.fixup_u8 H) = Outcome.ok Info ∧
      (FalconAsmBackend.applyFixup H ⟨Falcon.fixup_u8 H, o, l⟩ Data v).status = Outcome.ok () ∧
      (FalconAsmBackend.applyFixup H ⟨Falcon.fixup_u8 H, o, l⟩ Data v).Data.length
        = Data.length ∧
      (∀ j : Nat, ¬ (o ≤ j ∧ j < o + FalconAsmBackend.NumBytes Info) →
        (FalconAsmBackend.applyFixup H ⟨Falcon.fixup_u8 H, o, l⟩ Data v).Data[j]? = Data[j]?) ∧
      (∀ k : Nat, ¬ (Info.TargetOffset ≤ k ∧ k < Info.TargetOffset + Info.TargetSize) →
        ((FalconAsmBackend.applyFixup H ⟨Falcon.fixup_u8 H, o, l⟩ Data v).Data.getD o 0).testBit k
          = (Data.getD o 0).testBit k) := by
  refine ⟨_, FalconAsmBackend.getFixupKindInfo_u8 H, ?_⟩
  rw [FalconAsmBackend.NumBytes_u8]
  have hlt : o < Data.length := by omega
  rcases Nat.eq_zero_or_pos v with h0 | hpos
  · subst h0
    rw [FalconAsmBackend.applyFixup_u8_zero H o l Data]
    exact ⟨rfl, rfl, fun _ _ => rfl, fun _ _ => rfl⟩
  · rw [FalconAsmBackend.applyFixup_u8_inside H o l Data v ho32 hlt hpos hv]
    refine ⟨rfl, by simp, ?_, ?_⟩
    · intro j hj
      have hne : o ≠ j := by omega
      simp only [List.getElem?_set_ne hne]
    · intro k hk
      have hk8 : 8 ≤ k := by
        simp only [Nat.zero_le, Nat.zero_add, true_and, Nat.not_lt] at hk
        exact hk
      have hold := FalconAsmBackend.getD_lt Data hb o
      have hnew : (Data.set o ((Data.getD o 0 ||| v) % 256)).getD o 0 < 256 := by
        rw [List.getD_eq_getElem _ _ (by simpa using hlt), List.getElem_set_self]
        exact Nat.mod_lt _ (by norm_num)
      have hpow : 256 ≤ 2 ^ k :=
        calc 256 = 2 ^ 8 := by norm_num
          _ ≤ 2 ^ k := Nat.pow_le_pow_right (by norm_num) hk8
      rw [Nat.testBit_eq_false_of_lt (Nat.lt_of_lt_of_le hnew hpow),
        Nat.testBit_eq_false_of_lt (Nat.lt_of_lt_of_le hold hpow)]

/-- Witness of C3: value `0x3C` at offset 1 of the buffer `[0x00, 0x01, 0x80]`. -/
theorem C3_apply_u8_frame_witness :
    ∃ Info, FalconAsmBackend.getFixupKindInfo sampleHost (Falcon.fixup_u8 sampleHost)
        = Outcome.ok Info ∧
      (FalconAsmBackend.applyFixup sampleHost ⟨Falcon.fixup_u8 sampleHost, 1, 7⟩
        [0x00, 0x01, 0x80] 0x3C).status = Outcome.ok () ∧
      (FalconAsmBackend.applyFixup sampleHost ⟨Falcon.fixup_u8 sampleHost, 1, 7⟩
        [0x00, 0x01, 0x80] 0x3C).Data.length = [0x00, 0x01, 0x80].length ∧
      (∀ j : Nat, ¬ (1 ≤ j ∧ j < 1 + FalconAsmBackend.NumBytes Info) →
        (FalconAsmBackend.applyFixup sampleHost ⟨Falcon.fixup_u8 sampleHost, 1, 7⟩
          [0x00, 0x01, 0x80] 0x3C).Data[j]? = [0x00, 0x01, 0x80][j]?) ∧
      (∀ k : Nat, ¬ (Info.TargetOffset ≤ k ∧ k < Info.TargetOffset + Info.TargetSize) →
        ((FalconAsmBackend.applyFixup sampleHost ⟨Falcon.fixup_u8 sampleHost, 1, 7⟩
          [0x00, 0x01, 0x80] 0x3C).Data.getD 1 0).testBit k
          = ([0x00, 0x01, 0x80].getD 1 0).testBit k) :=
  C3_apply_u8_frame sampleHost 1 7 [0x00, 0x01, 0x80] 0x3C (by decide) (by decide) (by decide)
    (by decide)

/-- Claim C4 (zero short-circuit): for every buffer, whatever it holds, every
fixup of any kind and any byte offset, `applyFixup` with the value 0 leaves the
buffer as it was; for a `fixup_u8` fixup the call also returns normally,
without looking at the offset. -/
theorem C4_apply_zero_unchanged (H : Host) (Fixup : MCFixup) (Data : List Nat) :
    (FalconAsmBackend.applyFixup H Fixup Data 0).Data = Data ∧
    FalconAsmBackend.applyFixup H ⟨Falcon.fixup_u8 H, Fixup.Offset, Fixup.Loc⟩ Data 0 =
      { Data := Data, status := Outcome.ok () } := by
  constructor
  · unfold FalconAsmBackend.applyFixup
    cases h : FalconAsmBackend.adjustFixupValue H Fixup 0 (some MCContext.mk) with
    | ok r =>
      have hr : r = 0 := FalconAsmBackend.adjustFixupValue_ok H Fixup 0 r _ h
      simp [hr]
    | fatalError l m => rfl
    | unreachable m => rfl
    | assertion m => rfl
    | outOfBounds i => rfl
  · exact FalconAsmBackend.applyFixup_u8_zero H Fixup.Offset Fixup.Loc Data

set_option maxRecDepth 100000 in
/-- The digits of 256 do not occur in the text of the range diagnostic. -/
theorem adjust.diagnostic_u8_no_value :
    ¬ ((toString (256 : Nat)).toList <:+:
      "out of range immediate (expected an integer in the range 0 to 255)".toList) := by
  decide

/-- Counterexample to C5 as stated: the diagnostic for the rejected value 256 is
the located text "out of range immediate (expected an integer in the range 0 to
255)"; the digits of 256 do not occur in it, and the rejected value 300 gets the
very same diagnostic; without a context the diagnostic has no location. -/
theorem C5_counterexample :
    FalconAsmBackend.adjustFixupValue sampleHost ⟨Falcon.fixup_u8 sampleHost, 0, 7⟩ 256
        (some MCContext.mk) =
      Outcome.fatalError 7 "out of range immediate (expected an integer in the range 0 to 255)" ∧
    ¬ ((toString (256 : Nat)).toList <:+:
      "out of range immediate (expected an integer in the range 0 to 255)".toList) ∧
    FalconAsmBackend.adjustFixupValue sampleHost ⟨Falcon.fixup_u8 sampleHost, 0, 7⟩ 300
        (some MCContext.mk) =
      FalconAsmBackend.adjustFixupValue sampleHost ⟨Falcon.fixup_u8 sampleHost, 0, 7⟩ 256
        (some MCContext.mk) ∧
    FalconAsmBackend.adjustFixupValue sampleHost ⟨Falcon.fixup_u8 sampleHost, 0, 7⟩ 256 none =
      Outcome.unreachable "out of range immediate (expected an integer in the range 0 to 255)" := by
  refine ⟨?_, adjust.diagnostic_u8_no_value, ?_, ?_⟩
  · exact FalconAsmBackend.adjustFixupValue_u8_some sampleHost 0 7 256 _ (by decide)
  · rw [FalconAsmBackend.adjustFixupValue_u8_some sampleHost 0 7 256 _ (by decide),
      FalconAsmBackend.adjustFixupValue_u8_some sampleHost 0 7 300 _ (by decide)]
  · exact FalconAsmBackend.adjustFixupValue_u8_none sampleHost 0 7 256 (by decide)

/-- Claim C5, amended: whenever `adjustFixupValue` rejects a value for `fixup_u8`
(`v > 255`) and a diagnostic context is supplied, the diagnostic is reported at
the source location of the fixup and its text is "out of range immediate
(expected an integer in the range 0 to 255)", which names the valid range 0 to
`2 ^ width - 1` for the width 8 of the registry entry; the text is the same for
every rejected value (the offending value is not part of it). -/
theorem C5_diagnostic_content (H : Host) (o : Nat) (l : SMLoc) (v w : Nat) (c : MCContext)
    (hv : 255 < v) (hw : 255 < w) :
    FalconAsmBackend.adjustFixupValue H ⟨Falcon.fixup_u8 H, o, l⟩ v (some c) =
      Outcome.fatalError l
        ("out of range immediate (expected an integer in the range 0 to "
          ++ toString (2 ^ 8 - 1 : Nat) ++ ")") ∧
    FalconAsmBackend.getFixupKindInfo H (Falcon.fixup_u8 H) =
      Outcome.ok { Name := "fixup_u8", TargetOffset := 0, TargetSize := 8, Flags := 0 } ∧
    FalconAsmBackend.adjustFixupValue H ⟨Falcon.fixup_u8 H, o, l⟩ w (some c) =
      FalconAsmBackend.adjustFixupValue H ⟨Falcon.fixup_u8 H, o, l⟩ v (some c) := by
  have hmsg : ("out of range immediate (expected an integer in the range 0 to "
      ++ toString (2 ^ 8 - 1 : Nat) ++ ")") =
      "out of range immediate (expected an integer in the range 0 to 255)" := by rfl
  rw [hmsg, FalconAsmBackend.adjustFixupValue_u8_some H o l v c hv,
    FalconAsmBackend.adjustFixupValue_u8_some H o l w c hw]
  exact ⟨rfl, FalconAsmBackend.getFixupKindInfo_u8 H, rfl⟩

/-- Witness of C5 (amended): the rejected values 256 and 300 at location 7. -/
theorem C5_diagnostic_content_witness :
    FalconAsmBackend.adjustFixupValue sampleHost ⟨Falcon.fixup_u8 sampleHost, 0, 7⟩ 256
        (some MCContext.mk) =
      Outcome.fatalError 7
        ("out of range immediate (expected an integer in the range 0 to "
          ++ toString (2 ^ 8 - 1 : Nat) ++ ")") ∧
    FalconAsmBackend.getFixupKindInfo sampleHost (Falcon.fixup_u8 sampleHost) =
      Outcome.ok { Name := "fixup_u8", TargetOffset := 0, TargetSize := 8, Flags := 0 } ∧
    FalconAsmBackend.adjustFixupValue sampleHost ⟨Falcon.fixup_u8 sampleHost, 0, 7⟩ 300
        (some MCContext.mk) =
      FalconAsmBackend.adjustFixupValue sampleHost ⟨Falcon.fixup_u8 sampleHost, 0, 7⟩ 256
        (some MCContext.mk) :=
  C5_diagnostic_content sampleHost 0 7 256 300 MCContext.mk (by decide) (by decide)

/-- Counterexample to C6 as stated: with no diagnostic context (the default of
the parameter) the value 256 on `fixup_u8` ends in `llvm_unreachable`, the
internal-consistency abort, and not in the located range error. -/
theorem C6_counterexample :
    FalconAsmBackend.adjustFixupValue sampleHost ⟨Falcon.fixup_u8 sampleHost, 0, 7⟩ 256 none =
      Outcome.unreachable "out of range immediate (expected an integer in the range 0 to 255)" ∧
    ¬ (∃ Loc Msg,
      FalconAsmBackend.adjustFixupValue sampleHost ⟨Falcon.fixup_u8 sampleHost, 0, 7⟩ 256 none =
        Outcome.fatalError Loc Msg) := by
  have h := FalconAsmBackend.adjustFixupValue_u8_none sampleHost 0 7 256 (by decide)
  refine ⟨h, ?_⟩
  rintro ⟨Loc, Msg, hc⟩
  rw [h] at hc
  cases hc

/-- Claim C6, amended: for every call of `adjustFixupValue` on `fixup_u8` with a
value not representable in 8 bits, the failure is the located range error
(`reportFatalError` at the source location of the fixup, with the valid range in
its text), and neither `llvm_unreachable` nor an assertion, when a diagnostic
context is supplied; when no context is supplied the same text goes to
`llvm_unreachable`. -/
theorem C6_error_class (H : Host) (o : Nat) (l : SMLoc) (v : Nat) (hv : 255 < v) :
    (∀ c : MCContext,
      FalconAsmBackend.adjustFixupValue H ⟨Falcon.fixup_u8 H, o, l⟩ v (some c) =
        Outcome.fatalError l
          "out of range immediate (expected an integer in the range 0 to 255)") ∧
    (∀ (c : MCContext) (Msg : String),
      FalconAsmBackend.adjustFixupValue H ⟨Falcon.fixup_u8 H, o, l⟩ v (some c)
        ≠ Outcome.unreachable Msg ∧
      FalconAsmBackend.adjustFixupValue H ⟨Falcon.fixup_u8 H, o, l⟩ v (some c)
        ≠ Outcome.assertion Msg) ∧
    FalconAsmBackend.adjustFixupValue H ⟨Falcon.fixup_u8 H, o, l⟩ v none =
      Outcome.unreachable
        "out of range immediate (expected an integer in the range 0 to 255)" := by
  refine ⟨fun c => FalconAsmBackend.adjustFixupValue_u8_some H o l v c hv, ?_,
    FalconAsmBackend.adjustFixupValue_u8_none H o l v hv⟩
  intro c Msg
  rw [FalconAsmBackend.adjustFixupValue_u8_some H o l v c hv]
  exact ⟨fun h => (by cases h), fun h => (by cases h)⟩

/-- Witness of C6 (amended): the value 256 at location 7. -/
theorem C6_error_class_witness :
    (∀ c : MCContext,
      FalconAsmBackend.adjustFixupValue sampleHost ⟨Falcon.fixup_u8 sampleHost, 0, 7⟩ 256
          (some c) =
        Outcome.fatalError 7
          "out of range immediate (expected an integer in the range 0 to 255)") ∧
    (∀ (c : MCContext) (Msg : String),
      FalconAsmBackend.adjustFixupValue sampleHost ⟨Falcon.fixup_u8 sampleHost, 0, 7⟩ 256
          (some c) ≠ Outcome.unreachable Msg ∧
      FalconAsmBackend.adjustFixupValue sampleHost ⟨Falcon.fixup_u8 sampleHost, 0, 7⟩ 256
          (some c) ≠ Outcome.assertion Msg) ∧
    FalconAsmBackend.adjustFixupValue sampleHost ⟨Falcon.fixup_u8 sampleHost, 0, 7⟩ 256 none =
      Outcome.unreachable
        "out of range immediate (expected an integer in the range 0 to 255)" :=
  C6_error_class sampleHost 0 7 256 (by decide)

/-- The registry on a kind at or beyond the end of the target table. -/
theorem FalconAsmBackend.getFixupKindInfo_invalid (H : Host) (k : Nat)
    (h1 : H.FirstTargetFixupKind ≤ k)
    (h2 : Falcon.NumTargetFixupKinds ≤ k - H.FirstTargetFixupKind) (h32 : k < 2 ^ 32) :
    FalconAsmBackend.getFixupKindInfo H k = Outcome.assertion "Invalid kind!" := by
  have hmod : (k - H.FirstTargetFixupKind) % 2 ^ 32 = k - H.FirstTargetFixupKind :=
    Nat.mod_eq_of_lt (by omega)
  unfold Falcon.NumTargetFixupKinds at h2
  have hnot : ¬ (k < H.FirstTargetFixupKind) := by omega
  have hnot2 : ¬ (k - H.FirstTargetFixupKind < 1) := by omega
  unfold FalconAsmBackend.getFixupKindInfo
  rw [if_neg hnot, hmod]
  simp only [FalconAsmBackend.getNumFixupKinds, Falcon.NumTargetFixupKinds, hnot2, if_false]

/-- The adjuster on an inherited kind the registry knows. -/
theorem FalconAsmBackend.adjustFixupValue_inherited (H : Host) (Fixup : MCFixup) (v : Nat)
    (Ctx : Option MCContext) (Info : MCFixupKindInfo)
    (hk : Fixup.Kind < H.FirstTargetFixupKind)
    (hi : FalconAsmBackend.getFixupKindInfo H Fixup.Kind = Outcome.ok Info) :
    FalconAsmBackend.adjustFixupValue H Fixup v Ctx = Outcome.unreachable "unhandled fixup" := by
  have hne : Fixup.Kind ≠ Falcon.fixup_u8 H := by
    unfold Falcon.fixup_u8
    omega
  simp [FalconAsmBackend.adjustFixupValue, hi, hne]

/-- Counterexample to C7 as stated: `FK_Data_1` (kind 1) is a target-independent
kind for which `getFixupKindInfo` succeeds, the value 2 fits its 8 bits, and
`adjustFixupValue` ends in the "unhandled fixup" failure. -/
theorem C7_counterexample :
    FalconAsmBackend.getFixupKindInfo sampleHost 1 =
      Outcome.ok { Name := "FK_Data_1", TargetOffset := 0, TargetSize := 8, Flags := 0 } ∧
    FalconAsmBackend.adjustFixupValue sampleHost ⟨1, 0, 7⟩ 2 (some MCContext.mk) =
      Outcome.unreachable "unhandled fixup" := by
  constructor
  · rfl
  · exact FalconAsmBackend.adjustFixupValue_inherited sampleHost ⟨1, 0, 7⟩ 2 _ _
      (by decide) rfl

/-- Claim C7, amended: the adjuster has an explicit case for the target kind
`fixup_u8` only. For `fixup_u8` a value `<= 255` is accepted and no value ends
in "unhandled fixup"; every inherited kind (below `FirstTargetFixupKind`) for
which `getFixupKindInfo` succeeds ends in the "unhandled fixup"
`llvm_unreachable`, whatever the value; a kind at or beyond
`FirstTargetFixupKind + NumTargetFixupKinds` stops earlier, at the "Invalid
kind!" assertion of `getFixupKindInfo`; the "unhandled fixup" failure differs
from the range error. -/
theorem C7_adjust_cases (H : Host) (Fixup : MCFixup) (v : Nat) (Ctx : Option MCContext) :
    (v ≤ 255 → FalconAsmBackend.adjustFixupValue H
        ⟨Falcon.fixup_u8 H, Fixup.Offset, Fixup.Loc⟩ v Ctx = Outcome.ok v) ∧
    FalconAsmBackend.adjustFixupValue H ⟨Falcon.fixup_u8 H, Fixup.Offset, Fixup.Loc⟩ v Ctx
      ≠ Outcome.unreachable "unhandled fixup" ∧
    (Fixup.Kind < H.FirstTargetFixupKind →
      (∃ Info, FalconAsmBackend.getFixupKindInfo H Fixup.Kind = Outcome.ok Info) →
      FalconAsmBackend.adjustFixupValue H Fixup v Ctx = Outcome.unreachable "unhandled fixup") ∧
    (H.FirstTargetFixupKind + Falcon.NumTargetFixupKinds ≤ Fixup.Kind → Fixup.Kind < 2 ^ 32 →
      FalconAsmBackend.adjustFixupValue H Fixup v Ctx = Outcome.assertion "Invalid kind!") ∧
    (∀ (Loc : SMLoc) (w : Nat),
      (Outcome.unreachable "unhandled fixup" : Outcome Nat) ≠
        Outcome.fatalError Loc (adjust.diagnostic w "immediate")) ∧
    (Outcome.unreachable "unhandled fixup" : Outcome Nat) ≠
      Outcome.unreachable (adjust.diagnostic 8 "immediate") := by
  refine ⟨FalconAsmBackend.adjustFixupValue_u8_fits H _ _ v Ctx, ?_, ?_, ?_, ?_, ?_⟩
  · rcases Nat.lt_or_ge 255 v with hgt | hle
    · cases Ctx with
      | none =>
        rw [FalconAsmBackend.adjustFixupValue_u8_none H _ _ v hgt]
        decide
      | some c =>
        rw [FalconAsmBackend.adjustFixupValue_u8_some H _ _ v c hgt]
        intro h
        cases h
    · rw [FalconAsmBackend.adjustFixupValue_u8_fits H _ _ v Ctx hle]
      intro h
      cases h
  · rintro hk ⟨Info, hi⟩
    exact FalconAsmBackend.adjustFixupValue_inherited H Fixup v Ctx Info hk hi
  · intro hk h32
    have hinv := FalconAsmBackend.getFixupKindInfo_invalid H Fixup.Kind (by omega)
      (by omega) h32
    simp [FalconAsmBackend.adjustFixupValue, hinv]
  · intro Loc w h
    cases h
  · rw [adjust.diagnostic_u8]
    decide

/-- Counterexample to C8 as stated: the value 0 passes the adjuster, the offset 5
plus one byte exceeds the one-byte buffer, and `applyFixup` returns normally:
the early return on zero comes before the bounds assertion. -/
theorem C8_counterexample :
    FalconAsmBackend.adjustFixupValue sampleHost ⟨Falcon.fixup_u8 sampleHost, 5, 7⟩ 0
      (some MCContext.mk) = Outcome.ok 0 ∧
    [0x00].length < 5 + 1 ∧
    FalconAsmBackend.applyFixup sampleHost ⟨Falcon.fixup_u8 sampleHost, 5, 7⟩ [0x00] 0 =
      { Data := [0x00], status := Outcome.ok () } := by
  refine ⟨FalconAsmBackend.adjustFixupValue_u8_fits sampleHost 5 7 0 _ (by decide), by decide,
    FalconAsmBackend.applyFixup_u8_zero sampleHost 5 7 [0x00]⟩

/-- Claim C8, amended: for every buffer, every `fixup_u8` fixup whose
`byteOffset + NumBytes` does not wrap in `unsigned` arithmetic and every
non-zero value that passes the adjuster: if `byteOffset + NumBytes` exceeds the
length of the buffer, `applyFixup` fails with the bounds assertion "Invalid
fixup offset!" (not a range error) and the buffer is as before; if it does not
exceed the length, the call returns normally. With the value 0 the call returns
before the assertion is evaluated. -/
theorem C8_apply_bounds (H : Host) (o : Nat) (l : SMLoc) (Data : List Nat) (v : Nat)
    (hv1 : 1 ≤ v) (hv : v ≤ 255) (ho32 : o + 1 < 2 ^ 32) :
    ∃ Info, FalconAsmBackend.getFixupKindInfo H (Falcon.fixup_u8 H) = Outcome.ok Info ∧
      (Data.length < o + FalconAsmBackend.NumBytes Info →
        FalconAsmBackend.applyFixup H ⟨Falcon.fixup_u8 H, o, l⟩ Data v =
          { Data := Data, status := Outcome.assertion "Invalid fixup offset!" }) ∧
      (o + FalconAsmBackend.NumBytes Info ≤ Data.length →
        (FalconAsmBackend.applyFixup H ⟨Falcon.fixup_u8 H, o, l⟩ Data v).status
          = Outcome.ok ()) ∧
      FalconAsmBackend.applyFixup H ⟨Falcon.fixup_u8 H, o, l⟩ Data 0 =
        { Data := Data, status := Outcome.ok () } := by
  refine ⟨_, FalconAsmBackend.getFixupKindInfo_u8 H, ?_, ?_,
    FalconAsmBackend.applyFixup_u8_zero H o l Data⟩
  · rw [FalconAsmBackend.NumBytes_u8]
    intro hlen
    exact FalconAsmBackend.applyFixup_u8_beyond H o l Data v ho32 hlen hv1 hv
  · rw [FalconAsmBackend.NumBytes_u8]
    intro hlen
    rw [FalconAsmBackend.applyFixup_u8_inside H o l Data v (by omega) (by omega) hv1 hv]

/-- Witness of C8 (amended): value `0x3C`, offset 2, buffer `[0x00, 0x01]`. -/
theorem C8_apply_bounds_witness :
    ∃ Info, FalconAsmBackend.getFixupKindInfo sampleHost (Falcon.fixup_u8 sampleHost)
        = Outcome.ok Info ∧
      ([0x00, 0x01].length < 2 + FalconAsmBackend.NumBytes Info →
        FalconAsmBackend.applyFixup sampleHost ⟨Falcon.fixup_u8 sampleHost, 2, 7⟩
            [0x00, 0x01] 0x3C =
          { Data := [0x00, 0x01], status := Outcome.assertion "Invalid fixup offset!" }) ∧
      (2 + FalconAsmBackend.NumBytes Info ≤ [0x00, 0x01].length →
        (FalconAsmBackend.applyFixup sampleHost ⟨Falcon.fixup_u8 sampleHost, 2, 7⟩
            [0x00, 0x01] 0x3C).status = Outcome.ok ()) ∧
      FalconAsmBackend.applyFixup sampleHost ⟨Falcon.fixup_u8 sampleHost, 2, 7⟩ [0x00, 0x01] 0 =
        { Data := [0x00, 0x01], status := Outcome.ok () } :=
  C8_apply_bounds sampleHost 2 7 [0x00, 0x01] 0x3C (by decide) (by decide) (by decide)

/-- Claim C9 (registry ordering invariant): for every declared target kind `k`
(`FirstTargetFixupKind <= k` with index `k - FirstTargetFixupKind` below
`NumTargetFixupKinds`), `getFixupKindInfo k` returns the entry of the table
`Infos` at index `k - FirstTargetFixupKind`; its name is not empty and its bit
width is at most 64; the entry depends on nothing but the kind and the constant
table (any host with the same first target kind gives the same entry, so
repeated calls agree); the table has `NumTargetFixupKinds` entries and the
entry of `fixup_u8` is name "fixup_u8", offset 0, width 8, flags 0. -/
theorem C9_registry_ordering (H : Host) (k : Nat) (h1 : H.FirstTargetFixupKind ≤ k)
    (h2 : k - H.FirstTargetFixupKind < Falcon.NumTargetFixupKinds) :
    ∃ Info, FalconAsmBackend.getFixupKindInfo H k = Outcome.ok Info ∧
      FalconAsmBackend.Infos[k - H.FirstTargetFixupKind]? = some Info ∧
      Info.Name ≠ "" ∧
      Info.TargetSize ≤ 64 ∧
      (∀ H2 : Host, H2.FirstTargetFixupKind = H.FirstTargetFixupKind →
        FalconAsmBackend.getFixupKindInfo H2 k = Outcome.ok Info) ∧
      FalconAsmBackend.Infos.length = Falcon.NumTargetFixupKinds ∧
      FalconAsmBackend.getFixupKindInfo H (Falcon.fixup_u8 H) =
        Outcome.ok { Name := "fixup_u8", TargetOffset := 0, TargetSize := 8, Flags := 0 } := by
  unfold Falcon.NumTargetFixupKinds at h2
  have hk : k = Falcon.fixup_u8 H := by
    unfold Falcon.fixup_u8
    omega
  subst hk
  refine ⟨_, FalconAsmBackend.getFixupKindInfo_u8 H, ?_, by decide, by decide, ?_, rfl,
    FalconAsmBackend.getFixupKindInfo_u8 H⟩
  · simp [Falcon.fixup_u8, FalconAsmBackend.Infos]
  · intro H2 h
    have h3 : Falcon.fixup_u8 H = Falcon.fixup_u8 H2 := by
      unfold Falcon.fixup_u8
      exact h.symm
    rw [h3]
    exact FalconAsmBackend.getFixupKindInfo_u8 H2

/-- Witness of C9: kind 128, the first target kind of the sample host. -/
theorem C9_registry_ordering_witness :
    ∃ Info, FalconAsmBackend.getFixupKindInfo sampleHost 128 = Outcome.ok Info ∧
      FalconAsmBackend.Infos[128 - sampleHost.FirstTargetFixupKind]? = some Info ∧
      Info.Name ≠ "" ∧
      Info.TargetSize ≤ 64 ∧
      (∀ H2 : Host, H2.FirstTargetFixupKind = sampleHost.FirstTargetFixupKind →
        FalconAsmBackend.getFixupKindInfo H2 128 = Outcome.ok Info) ∧
      FalconAsmBackend.Infos.length = Falcon.NumTargetFixupKinds ∧
      FalconAsmBackend.getFixupKindInfo sampleHost (Falcon.fixup_u8 sampleHost) =
        Outcome.ok { Name := "fixup_u8", TargetOffset := 0, TargetSize := 8, Flags := 0 } :=
  C9_registry_ordering sampleHost 128 (by decide) (by decide)

/-- Claim C10: for every kind below `FirstTargetFixupKind`, `getFixupKindInfo`
returns exactly what the built-in table of the host framework returns for that
kind; for every kind (a 32-bit value) at or above `FirstTargetFixupKind` whose
index `kind - FirstTargetFixupKind` is not less than `getNumFixupKinds()`,
`getFixupKindInfo` fails with the "Invalid kind!" assertion and returns no
entry. -/
theorem C10_registry_delegation (H : Host) (k : Nat) :
    (k < H.FirstTargetFixupKind →
      FalconAsmBackend.getFixupKindInfo H k = H.builtinFixupKindInfo k) ∧
    (H.FirstTargetFixupKind ≤ k →
      FalconAsmBackend.getNumFixupKinds ≤ k - H.FirstTargetFixupKind → k < 2 ^ 32 →
      FalconAsmBackend.getFixupKindInfo H k = Outcome.assertion "Invalid kind!" ∧
      ∀ Info, FalconAsmBackend.getFixupKindInfo H k ≠ Outcome.ok Info) := by
  constructor
  · intro hk
    simp [FalconAsmBackend.getFixupKindInfo, hk]
  · intro h1 h2 h32
    have h := FalconAsmBackend.getFixupKindInfo_invalid H k h1 h2 h32
    refine ⟨h, ?_⟩
    intro Info hc
    rw [h] at hc
    cases hc

/-- Witness of C10: on the sample host kind 1 (`FK_Data_1`) is answered by the
built-in table and kind 129 (index 1) hits the assertion. -/
theorem C10_registry_delegation_witness :
    FalconAsmBackend.getFixupKindInfo sampleHost 1 =
      Outcome.ok { Name := "FK_Data_1", TargetOffset := 0, TargetSize := 8, Flags := 0 } ∧
    FalconAsmBackend.getFixupKindInfo sampleHost 129 = Outcome.assertion "Invalid kind!" :=
  ⟨((C10_registry_delegation sampleHost 1).1 (by decide)).trans rfl,
    ((C10_registry_delegation sampleHost 129).2 (by decide) (by decide) (by decide)).1⟩

/-- Witness of C7 (amended) on the sample host: `fixup_u8` accepts 255, the
inherited kind 2 (`FK_Data_2`) ends in "unhandled fixup" and kind 129 in
"Invalid kind!". -/
theorem C7_adjust_cases_witness :
    FalconAsmBackend.adjustFixupValue sampleHost ⟨Falcon.fixup_u8 sampleHost, 0, 7⟩ 255
      (some MCContext.mk) = Outcome.ok 255 ∧
    FalconAsmBackend.adjustFixupValue sampleHost ⟨2, 0, 7⟩ 255 (some MCContext.mk) =
      Outcome.unreachable "unhandled fixup" ∧
    FalconAsmBackend.adjustFixupValue sampleHost ⟨129, 0, 7⟩ 255 (some MCContext.mk) =
      Outcome.assertion "Invalid kind!" :=
  ⟨(C7_adjust_cases sampleHost ⟨128, 0, 7⟩ 255 (some MCContext.mk)).1 (by decide),
    (C7_adjust_cases sampleHost ⟨2, 0, 7⟩ 255 (some MCContext.mk)).2.2.1 (by decide)
      ⟨_, rfl⟩,
    (C7_adjust_cases sampleHost ⟨129, 0, 7⟩ 255 (some MCContext.mk)).2.2.2.1 (by decide)
      (by decide)⟩

/-- Storing back the byte that is already there changes nothing. -/
theorem FalconAsmBackend.set_getD_self (Data : List Nat) (o : Nat) (ho : o < Data.length) :
    Data.set o (Data.getD o 0) = Data := by
  apply List.ext_getElem?
  intro n
  rcases Nat.decEq o n with hne | heq
  · rw [List.getElem?_set_ne hne]
  · subst heq
    rw [List.getElem?_set_self ho, List.getD_eq_getElem _ _ ho, List.getElem?_eq_getElem ho]

/-- The applier on `fixup_u8` with any accepted value, zero or not, and an offset
inside a buffer of bytes: the byte at the offset is OR-ed with the value. -/
theorem FalconAsmBackend.applyFixup_u8_bytes (H : Host) (o : Nat) (l : SMLoc)
    (Data : List Nat) (v : Nat) (hb : ∀ b ∈ Data, b < 256) (ho32 : o < 2 ^ 32)
    (ho : o < Data.length) (hv : v ≤ 255) :
    FalconAsmBackend.applyFixup H ⟨Falcon.fixup_u8 H, o, l⟩ Data v =
      { Data := Data.set o (Data.getD o 0 ||| v), status := Outcome.ok () } := by
  rcases Nat.eq_zero_or_pos v with h0 | hpos
  · subst h0
    rw [FalconAsmBackend.applyFixup_u8_zero H o l Data, Nat.or_zero,
      FalconAsmBackend.set_getD_self Data o ho]
  · rw [FalconAsmBackend.applyFixup_u8_inside H o l Data v ho32 ho hpos hv,
      FalconAsmBackend.or_mod_byte _ _ (FalconAsmBackend.getD_lt Data hb o) hv]

/-- A store of a byte keeps the buffer a buffer of bytes. -/
theorem FalconAsmBackend.set_bytes (Data : List Nat) (hb : ∀ b ∈ Data, b < 256) (o x : Nat)
    (hx : x < 256) : ∀ b ∈ Data.set o x, b < 256 := by
  intro b hmem
  rcases List.mem_or_eq_of_mem_set hmem with h | h
  · exact hb b h
  · rw [h]
    exact hx

/-- OR of two bytes is below 256. -/
theorem FalconAsmBackend.or_lt_byte (b v : Nat) (hb : b < 256) (hv : v ≤ 255) :
    b ||| v < 256 := by
  have h1 : b < 2 ^ 8 := by omega
  have h2 : v < 2 ^ 8 := by omega
  have h3 := Nat.or_lt_two_pow h1 h2
  omega

/-- The byte read back at the index of a store. -/
theorem FalconAsmBackend.getD_set_self (Data : List Nat) (o x : Nat) (ho : o < Data.length) :
    (Data.set o x).getD o 0 = x := by
  rw [List.getD_eq_getElem _ _ (by simpa using ho), List.getElem_set_self]

/-- Claim C11 (padding decline): for every output stream and every requested
count, zero included, `writeNopData` returns false and leaves the stream as it
was, in length and in content. -/
theorem C11_writeNopData_declines (OS : List Nat) (Count : Nat) :
    (FalconAsmBackend.writeNopData OS Count).1 = false ∧
    (FalconAsmBackend.writeNopData OS Count).2 = OS ∧
    (FalconAsmBackend.writeNopData OS Count).2.length = OS.length ∧
    (FalconAsmBackend.writeNopData OS 0).1 = false := by
  exact ⟨rfl, rfl, rfl, rfl⟩

/-- Claim C12 (relocation force policy): for every fixup, of a target kind or
of an inherited kind, and every target value, `shouldForceRelocation` returns
false; two calls on fixups of the same kind give the same answer, whatever the
offsets, locations and target values. -/
theorem C12_shouldForceRelocation_false (Fixup Fixup2 : MCFixup) (Target Target2 : MCValue) :
    FalconAsmBackend.shouldForceRelocation Fixup Target = false ∧
    (Fixup.Kind = Fixup2.Kind →
      FalconAsmBackend.shouldForceRelocation Fixup Target =
        FalconAsmBackend.shouldForceRelocation Fixup2 Target2) := by
  exact ⟨rfl, fun _ => rfl⟩

/-- Claim C13 (re-application is idempotent): for a buffer of bytes, a `fixup_u8`
fixup inside the buffer and a value accepted by the adjuster, applying the
fixup a second time to the result of the first application returns normally
with exactly the buffer the first application produced. -/
theorem C13_apply_idempotent (H : Host) (o : Nat) (l : SMLoc) (Data : List Nat) (v : Nat)
    (hb : ∀ b ∈ Data, b < 256) (ho32 : o < 2 ^ 32) (ho : o + 1 ≤ Data.length)
    (hv : v ≤ 255) :
    (FalconAsmBackend.applyFixup H ⟨Falcon.fixup_u8 H, o, l⟩ Data v).status = Outcome.ok () ∧
    FalconAsmBackend.applyFixup H ⟨Falcon.fixup_u8 H, o, l⟩
        (FalconAsmBackend.applyFixup H ⟨Falcon.fixup_u8 H, o, l⟩ Data v).Data v =
      FalconAsmBackend.applyFixup H ⟨Falcon.fixup_u8 H, o, l⟩ Data v := by
  have hlt : o < Data.length := by omega
  have hold := FalconAsmBackend.getD_lt Data hb o
  have hnew := FalconAsmBackend.or_lt_byte _ _ hold hv
  rw [FalconAsmBackend.applyFixup_u8_bytes H o l Data v hb ho32 hlt hv]
  refine ⟨rfl, ?_⟩
  show FalconAsmBackend.applyFixup H ⟨Falcon.fixup_u8 H, o, l⟩
    (Data.set o (Data.getD o 0 ||| v)) v = _
  rw [FalconAsmBackend.applyFixup_u8_bytes H o l _ v
    (FalconAsmBackend.set_bytes Data hb o _ hnew) ho32 (by simpa using hlt) hv,
    FalconAsmBackend.getD_set_self Data o _ hlt, List.set_set]
  have hidem : (Data.getD o 0 ||| v) ||| v = Data.getD o 0 ||| v := by
    rw [Nat.or_assoc, Nat.or_self]
  rw [hidem]

/-- Witness of C13: value `0x3C` twice at offset 1 of `[0x00, 0x01, 0x80]`. -/
theorem C13_apply_idempotent_witness :
    (FalconAsmBackend.applyFixup sampleHost ⟨Falcon.fixup_u8 sampleHost, 1, 7⟩
      [0x00, 0x01, 0x80] 0x3C).status = Outcome.ok () ∧
    FalconAsmBackend.applyFixup sampleHost ⟨Falcon.fixup_u8 sampleHost, 1, 7⟩
        (FalconAsmBackend.applyFixup sampleHost ⟨Falcon.fixup_u8 sampleHost, 1, 7⟩
          [0x00, 0x01, 0x80] 0x3C).Data 0x3C =
      FalconAsmBackend.applyFixup sampleHost ⟨Falcon.fixup_u8 sampleHost, 1, 7⟩
        [0x00, 0x01, 0x80] 0x3C :=
  C13_apply_idempotent sampleHost 1 7 [0x00, 0x01, 0x80] 0x3C (by decide) (by decide)
    (by decide) (by decide)

/-- The slice of `Value` that round `i` of the loop ORs into its byte. -/
theorem FalconAsmBackend.mask_testBit (V i c : Nat) :
    (((V >>> (i * 8)) &&& 0xFF) % 2 ^ 8).testBit c = (decide (c < 8) && V.testBit (i * 8 + c)) := by
  have h255 : (255 : Nat) = 2 ^ 8 - 1 := by norm_num
  rw [Nat.testBit_mod_two_pow, Nat.testBit_and, Nat.testBit_shiftRight, h255,
    Nat.testBit_two_pow_sub_one]
  cases decide (c < 8) <;> simp

/-- What the loop does, byte by byte: when the `n` indices from `Offset + i` on
lie inside the buffer and below `2 ^ 32`, the loop returns normally, keeps the
length, ORs the slice of `Value` into each of these bytes and keeps the others. -/
theorem FalconAsmBackend.patchLoop_bytes (V O : Nat) :
    ∀ (n i : Nat) (Data : List Nat), O + i + n ≤ Data.length → O + i + n ≤ 2 ^ 32 →
      (FalconAsmBackend.patchLoop V O n i Data).status = Outcome.ok () ∧
      (FalconAsmBackend.patchLoop V O n i Data).Data.length = Data.length ∧
      ∀ j : Nat, (FalconAsmBackend.patchLoop V O n i Data).Data.getD j 0 =
        if O + i ≤ j ∧ j < O + i + n then
          (Data.getD j 0 ||| ((V >>> ((j - O) * 8)) &&& 0xFF) % 2 ^ 8) % 256
        else Data.getD j 0 := by
  intro n
  induction n with
  | zero =>
    intro i Data _ _
    refine ⟨rfl, rfl, ?_⟩
    intro j
    have hno : ¬ (O + i ≤ j ∧ j < O + i + 0) := by omega
    rw [if_neg hno]
    rfl
  | succ n ih =>
    intro i Data hlen h32
    have hidx : (O + i) % 2 ^ 32 = O + i := Nat.mod_eq_of_lt (by omega)
    have hin : O + i < Data.length := by omega
    have hstep : FalconAsmBackend.patchLoop V O (n + 1) i Data =
        FalconAsmBackend.patchLoop V O n (i + 1)
          (Data.set (O + i) ((Data.getD (O + i) 0 ||| ((V >>> (i * 8)) &&& 0xFF) % 2 ^ 8) % 256)) := by
      simp only [FalconAsmBackend.patchLoop, hidx, hin, if_true]
    rw [hstep]
    have hlen2 : O + (i + 1) + n ≤
        (Data.set (O + i) ((Data.getD (O + i) 0 ||| ((V >>> (i * 8)) &&& 0xFF) % 2 ^ 8)
          % 256)).length := by
      rw [List.length_set]
      omega
    obtain ⟨hs, hl, hj⟩ := ih (i + 1) _ hlen2 (by omega)
    refine ⟨hs, ?_, ?_⟩
    · rw [hl, List.length_set]
    · intro j
      rw [hj j]
      rcases Nat.decEq (O + i) j with hne | heq
      · have hget : (Data.set (O + i)
            ((Data.getD (O + i) 0 ||| ((V >>> (i * 8)) &&& 0xFF) % 2 ^ 8) % 256)).getD j 0
            = Data.getD j 0 := by
          simp only [List.getD_eq_getElem?_getD, List.getElem?_set_ne hne]
        rw [hget]
        by_cases hc : O + (i + 1) ≤ j ∧ j < O + (i + 1) + n
        · have hc2 : O + i ≤ j ∧ j < O + i + (n + 1) := by omega
          rw [if_pos hc, if_pos hc2]
        · have hc2 : ¬ (O + i ≤ j ∧ j < O + i + (n + 1)) := by omega
          rw [if_neg hc, if_neg hc2]
      · subst heq
        have hc : ¬ (O + (i + 1) ≤ O + i ∧ O + i < O + (i + 1) + n) := by omega
        have hc2 : O + i ≤ O + i ∧ O + i < O + i + (n + 1) := by omega
        rw [if_neg hc, if_pos hc2, FalconAsmBackend.getD_set_self Data (O + i) _ hin]
        have hsub : O + i - O = i := by omega
        rw [hsub]

/-- The bits of the little-endian integer over a buffer of bytes: bit `k` is bit
`k % 8` of byte `k / 8` of the span. -/
theorem littleEndian_testBit (Data : List Nat) (hb : ∀ j, Data.getD j 0 < 256) :
    ∀ (n o k : Nat), (littleEndian Data o n).testBit k =
      (decide (k / 8 < n) && (Data.getD (o + k / 8) 0).testBit (k % 8)) := by
  intro n
  induction n with
  | zero =>
    intro o k
    simp [littleEndian]
  | succ n ih =>
    intro o k
    have hb8 : Data.getD o 0 < 2 ^ 8 := by
      have := hb o
      omega
    have hform : littleEndian Data o (n + 1) =
        2 ^ 8 * littleEndian Data (o + 1) n + Data.getD o 0 := by
      simp only [littleEndian]
      omega
    rw [hform, Nat.testBit_mul_pow_two_add _ hb8]
    by_cases hk : k < 8
    · have h0 : k / 8 = 0 := by omega
      have h1 : k % 8 = k := by omega
      rw [if_pos hk, h0, h1]
      simp
    · rw [if_neg hk, ih (o + 1) (k - 8)]
      have h0 : (k - 8) / 8 = k / 8 - 1 := by omega
      have h1 : (k - 8) % 8 = k % 8 := by omega
      have h2 : o + 1 + (k / 8 - 1) = o + k / 8 := by omega
      have h3 : decide (k / 8 - 1 < n) = decide (k / 8 < n + 1) := by
        apply decide_eq_decide.mpr
        omega
      rw [h0, h1, h2, h3]

/-- The byte count covers the field: `8 * NumBytes` is at least
`TargetOffset + TargetSize` when that sum is at most 64. -/
theorem FalconAsmBackend.NumBytes_covers (Info : MCFixupKindInfo)
    (hw : Info.TargetOffset + Info.TargetSize ≤ 64) :
    Info.TargetOffset + Info.TargetSize ≤ 8 * FalconAsmBackend.NumBytes Info := by
  have hmod : (Info.TargetSize + Info.TargetOffset) % 2 ^ 32 =
      Info.TargetSize + Info.TargetOffset := Nat.mod_eq_of_lt (by omega)
  unfold FalconAsmBackend.NumBytes
  simp only [hmod]
  split <;> omega

/-- A value that fits the field is not cut by the 64-bit shift and stays below
`2 ^ (TargetOffset + TargetSize)`. -/
theorem FalconAsmBackend.shift_fits (Info : MCFixupKindInfo) (v : Nat)
    (hw : Info.TargetOffset + Info.TargetSize ≤ 64) (hv : v < 2 ^ Info.TargetSize) :
    (v <<< Info.TargetOffset) % 2 ^ 64 = v <<< Info.TargetOffset ∧
    v <<< Info.TargetOffset < 2 ^ (Info.TargetOffset + Info.TargetSize) := by
  have h1 : v <<< Info.TargetOffset < 2 ^ (Info.TargetOffset + Info.TargetSize) := by
    rw [Nat.shiftLeft_eq, Nat.pow_add, Nat.mul_comm]
    exact Nat.mul_lt_mul_of_pos_left hv (Nat.two_pow_pos _)
  have h2 : 2 ^ (Info.TargetOffset + Info.TargetSize) ≤ 2 ^ 64 :=
    Nat.pow_le_pow_right (by norm_num) hw
  exact ⟨Nat.mod_eq_of_lt (Nat.lt_of_lt_of_le h1 h2), h1⟩

/-- With the span inside the buffer and below `2 ^ 32`, the body of `applyFixup`
is the loop over `NumBytes` bytes on the shifted value. -/
theorem FalconAsmBackend.patch_eq_loop (Info : MCFixupKindInfo) (Fixup : MCFixup)
    (Data : List Nat) (v : Nat) (ho32 : Fixup.Offset < 2 ^ 32)
    (ho : Fixup.Offset + FalconAsmBackend.NumBytes Info ≤ Data.length) :
    FalconAsmBackend.patch Info Fixup Data v =
      FalconAsmBackend.patchLoop ((v <<< Info.TargetOffset) % 2 ^ 64) Fixup.Offset
        (FalconAsmBackend.NumBytes Info) 0 Data := by
  have hmod : Fixup.Offset % 2 ^ 32 = Fixup.Offset := Nat.mod_eq_of_lt ho32
  have hle : (Fixup.Offset + FalconAsmBackend.NumBytes Info) % 2 ^ 32 ≤ Data.length :=
    Nat.le_trans (Nat.mod_le _ _) ho
  simp only [FalconAsmBackend.patch, hmod, hle, if_true]

/-- The little-endian integer of the span after the loop is the one before
OR the value, for a value that fits the span. -/
theorem FalconAsmBackend.patchLoop_littleEndian (V O n : Nat) (Data : List Nat)
    (hb : ∀ b ∈ Data, b < 256) (hlen : O + n ≤ Data.length) (h32 : O + n ≤ 2 ^ 32)
    (hV : V < 2 ^ (8 * n)) :
    littleEndian (FalconAsmBackend.patchLoop V O n 0 Data).Data O n =
      littleEndian Data O n ||| V := by
  obtain ⟨_, _, hj⟩ := FalconAsmBackend.patchLoop_bytes V O n 0 Data (by omega) (by omega)
  have hbD : ∀ j, Data.getD j 0 < 256 := FalconAsmBackend.getD_lt Data hb
  have hbR : ∀ j, (FalconAsmBackend.patchLoop V O n 0 Data).Data.getD j 0 < 256 := by
    intro j
    rw [hj j]
    split
    · exact Nat.mod_lt _ (by norm_num)
    · exact hbD j
  apply Nat.eq_of_testBit_eq
  intro k
  rw [littleEndian_testBit _ hbR, Nat.testBit_or, littleEndian_testBit _ hbD]
  by_cases hk : k / 8 < n
  · have hspan : O + 0 ≤ O + k / 8 ∧ O + k / 8 < O + 0 + n := by omega
    have hsub : O + k / 8 - O = k / 8 := by omega
    have h256 : (256 : Nat) = 2 ^ 8 := by norm_num
    have hc : k % 8 < 8 := Nat.mod_lt _ (by norm_num)
    have hkk : k / 8 * 8 + k % 8 = k := by omega
    rw [hj (O + k / 8), if_pos hspan, hsub, h256, Nat.testBit_mod_two_pow, Nat.testBit_or,
      FalconAsmBackend.mask_testBit, hkk]
    simp [hk, hc]
  · have hVk : V.testBit k = false := by
      apply Nat.testBit_eq_false_of_lt
      exact Nat.lt_of_lt_of_le hV (Nat.pow_le_pow_right (by norm_num) (by omega))
    simp [hk, hVk]

/-- Every byte read from a buffer filled with zero is zero. -/
theorem FalconAsmBackend.getD_replicate_zero (n j : Nat) :
    (List.replicate n 0).getD j 0 = 0 := by
  rcases Nat.lt_or_ge j n with h | h
  · rw [List.getD_eq_getElem _ _ (by simpa using h), List.getElem_replicate]
  · rw [List.getD_eq_default _ _ (by simpa using h)]

/-- The body of `applyFixup` on a 16-bit field at offset `2 ^ 32 - 1` of a
zero-filled buffer of `2 ^ 32 + 1` bytes: the index of the second store wraps
to 0. -/
theorem FalconAsmBackend.patch_wraps (Data : List Nat) (k : Nat) (l : SMLoc)
    (hlen : Data.length = 4294967297) (h0 : Data.getD 0 0 = 0)
    (h1 : Data.getD 4294967295 0 = 0) :
    FalconAsmBackend.patch { Name := "fixup_u16", TargetOffset := 0, TargetSize := 16, Flags := 0 }
        ⟨k, 4294967295, l⟩ Data 0x100 =
      { Data := (Data.set 4294967295 0).set 0 1, status := Outcome.ok () } := by
  have hN : FalconAsmBackend.NumBytes
      { Name := "fixup_u16", TargetOffset := 0, TargetSize := 16, Flags := 0 } = 2 := by decide
  have hV : (0x100 <<< 0) % 2 ^ 64 = 256 := by norm_num
  have hO : 4294967295 % 2 ^ 32 = 4294967295 := by norm_num
  have hchk : (4294967295 + 2) % 2 ^ 32 ≤ Data.length := by
    rw [hlen]
    norm_num
  have hi0 : (4294967295 + 0) % 2 ^ 32 = 4294967295 := by norm_num
  have hi1 : (4294967295 + (0 + 1)) % 2 ^ 32 = 0 := by norm_num
  have hm0 : ((256 >>> (0 * 8)) &&& 0xFF) % 2 ^ 8 = 0 := by decide
  have hm1 : ((256 >>> ((0 + 1) * 8)) &&& 0xFF) % 2 ^ 8 = 1 := by decide
  have hin0 : 4294967295 < Data.length := by
    rw [hlen]
    norm_num
  have hin1 : 0 < (Data.set 4294967295 ((Data.getD 4294967295 0 ||| 0) % 256)).length := by
    rw [List.length_set, hlen]
    norm_num
  have hne : (4294967295 : Nat) ≠ 0 := by norm_num
  have hg : (Data.set 4294967295 ((Data.getD 4294967295 0 ||| 0) % 256)).getD 0 0 = 0 := by
    simp only [List.getD_eq_getElem?_getD, List.getElem?_set_ne hne]
    simpa only [List.getD_eq_getElem?_getD] using h0
  have hb0 : (Data.getD 4294967295 0 ||| 0) % 256 = 0 := by
    rw [h1]
    decide
  have hb1 : (0 ||| 1) % 256 = 1 := by decide
  simp only [FalconAsmBackend.patch, hN, hV, hO, hchk, if_true, FalconAsmBackend.patchLoop,
    hi0, hi1, hm0, hm1, hin0, hin1, hg, hb1]
  rw [hb0]

/-- The little-endian integer of two bytes. -/
theorem littleEndian_two (Data : List Nat) (o : Nat) :
    littleEndian Data o 2 = Data.getD o 0 + 256 * Data.getD (o + 1) 0 := by
  simp only [littleEndian]
  omega

/-- Counterexample to C14 as stated: a 16-bit field (offset 0, width 16, so
`NumBytes` is 2), the value `0x100`, the byte offset `2 ^ 32 - 1` and a
zero-filled buffer of `2 ^ 32 + 1` bytes. The span is inside the buffer and the
call returns normally, but the second store goes to index 0 (the index
`Offset + i` wraps in `unsigned`): the little-endian integer of the span is not
the old one OR the value, and byte 0, outside the span, becomes 1. -/
theorem C14_counterexample :
    (0 + 16 ≤ 64 ∧ 0x100 < 2 ^ 16 ∧ (∀ b ∈ List.replicate 4294967297 0, b < 256) ∧
      4294967295 + FalconAsmBackend.NumBytes
        { Name := "fixup_u16", TargetOffset := 0, TargetSize := 16, Flags := 0 } ≤
        (List.replicate 4294967297 0).length) ∧
    (FalconAsmBackend.patch { Name := "fixup_u16", TargetOffset := 0, TargetSize := 16, Flags := 0 }
        ⟨0, 4294967295, 7⟩ (List.replicate 4294967297 0) 0x100).status = Outcome.ok () ∧
    littleEndian
        (FalconAsmBackend.patch
          { Name := "fixup_u16", TargetOffset := 0, TargetSize := 16, Flags := 0 }
          ⟨0, 4294967295, 7⟩ (List.replicate 4294967297 0) 0x100).Data 4294967295 2 = 0 ∧
    littleEndian (List.replicate 4294967297 0) 4294967295 2 ||| (0x100 <<< 0) = 256 ∧
    (FalconAsmBackend.patch { Name := "fixup_u16", TargetOffset := 0, TargetSize := 16, Flags := 0 }
        ⟨0, 4294967295, 7⟩ (List.replicate 4294967297 0) 0x100).Data.getD 0 0 = 1 := by
  have hN : FalconAsmBackend.NumBytes
      { Name := "fixup_u16", TargetOffset := 0, TargetSize := 16, Flags := 0 } = 2 := by decide
  have hlen : (List.replicate 4294967297 0).length = 4294967297 := List.length_replicate _ _
  have hz := FalconAsmBackend.getD_replicate_zero 4294967297
  rw [FalconAsmBackend.patch_wraps _ 0 7 hlen (hz 0) (hz 4294967295)]
  have hne : (0 : Nat) ≠ 4294967295 := by norm_num
  have hne2 : (0 : Nat) ≠ 4294967295 + 1 := by norm_num
  have hne3 : (4294967295 : Nat) ≠ 4294967295 + 1 := by norm_num
  have hr0 : (((List.replicate 4294967297 0).set 4294967295 0).set 0 1).getD 4294967295 0 = 0 := by
    simp only [List.getD_eq_getElem?_getD, List.getElem?_set_ne hne]
    have := FalconAsmBackend.getD_set_self (List.replicate 4294967297 0) 4294967295 0
      (by rw [hlen]; norm_num)
    simpa only [List.getD_eq_getElem?_getD] using this
  have hr1 : (((List.replicate 4294967297 0).set 4294967295 0).set 0 1).getD
      (4294967295 + 1) 0 = 0 := by
    simp only [List.getD_eq_getElem?_getD, List.getElem?_set_ne hne2,
      List.getElem?_set_ne hne3]
    simpa only [List.getD_eq_getElem?_getD] using hz (4294967295 + 1)
  refine ⟨⟨by norm_num, by norm_num, ?_, ?_⟩, rfl, ?_, ?_, ?_⟩
  · intro b hb
    rw [List.eq_of_mem_replicate hb]
    norm_num
  · rw [hN, hlen]
  · show littleEndian (((List.replicate 4294967297 0).set 4294967295 0).set 0 1) 4294967295 2 = 0
    rw [littleEndian_two, hr0, hr1]
  · rw [littleEndian_two, hz 4294967295, hz (4294967295 + 1)]
    decide
  · show (((List.replicate 4294967297 0).set 4294967295 0).set 0 1).getD 0 0 = 1
    exact FalconAsmBackend.getD_set_self _ 0 1 (by rw [List.length_set, hlen]; norm_num)

/-- Claim C14, amended: the bit-packing loop of `applyFixup` is correct for an
arbitrary field layout as long as the byte span ends at or below `2 ^ 32`: for
every `MCFixupKindInfo` with `TargetOffset + TargetSize <= 64`, every value
`v < 2 ^ TargetSize`, every buffer of bytes and every 32-bit byte offset with
`Offset + NumBytes` at most the length of the buffer and at most `2 ^ 32`, the
body of `applyFixup` returns normally, keeps the length, turns the little-endian
integer of the `NumBytes` bytes at `Offset` into the old one OR
`v << TargetOffset`, changes no bit of it outside positions `TargetOffset` ..
`TargetOffset + TargetSize - 1`, and keeps every byte outside the span. -/
theorem C14_patch_any_layout (Info : MCFixupKindInfo) (Fixup : MCFixup) (Data : List Nat)
    (v : Nat) (hb : ∀ b ∈ Data, b < 256)
    (hw : Info.TargetOffset + Info.TargetSize ≤ 64) (hv : v < 2 ^ Info.TargetSize)
    (ho32 : Fixup.Offset < 2 ^ 32)
    (ho : Fixup.Offset + FalconAsmBackend.NumBytes Info ≤ Data.length)
    (h32 : Fixup.Offset + FalconAsmBackend.NumBytes Info ≤ 2 ^ 32) :
    (FalconAsmBackend.patch Info Fixup Data v).status = Outcome.ok () ∧
    (FalconAsmBackend.patch Info Fixup Data v).Data.length = Data.length ∧
    littleEndian (FalconAsmBackend.patch Info Fixup Data v).Data Fixup.Offset
        (FalconAsmBackend.NumBytes Info) =
      littleEndian Data Fixup.Offset (FalconAsmBackend.NumBytes Info)
        ||| (v <<< Info.TargetOffset) ∧
    (∀ k : Nat, ¬ (Info.TargetOffset ≤ k ∧ k < Info.TargetOffset + Info.TargetSize) →
      (littleEndian (FalconAsmBackend.patch Info Fixup Data v).Data Fixup.Offset
          (FalconAsmBackend.NumBytes Info)).testBit k =
        (littleEndian Data Fixup.Offset (FalconAsmBackend.NumBytes Info)).testBit k) ∧
    (∀ j : Nat, ¬ (Fixup.Offset ≤ j ∧ j < Fixup.Offset + FalconAsmBackend.NumBytes Info) →
      (FalconAsmBackend.patch Info Fixup Data v).Data.getD j 0 = Data.getD j 0) := by
  obtain ⟨hshift, hlt⟩ := FalconAsmBackend.shift_fits Info v hw hv
  have hcov := FalconAsmBackend.NumBytes_covers Info hw
  have hV : v <<< Info.TargetOffset < 2 ^ (8 * FalconAsmBackend.NumBytes Info) :=
    Nat.lt_of_lt_of_le hlt (Nat.pow_le_pow_right (by norm_num) hcov)
  rw [FalconAsmBackend.patch_eq_loop Info Fixup Data v ho32 ho, hshift]
  obtain ⟨hs, hl, hj⟩ := FalconAsmBackend.patchLoop_bytes (v <<< Info.TargetOffset)
    Fixup.Offset (FalconAsmBackend.NumBytes Info) 0 Data (by omega) (by omega)
  have hle := FalconAsmBackend.patchLoop_littleEndian (v <<< Info.TargetOffset) Fixup.Offset
    (FalconAsmBackend.NumBytes Info) Data hb ho h32 hV
  refine ⟨hs, hl, hle, ?_, ?_⟩
  · intro k hk
    rw [hle, Nat.testBit_or, Nat.testBit_shiftLeft]
    by_cases hge : Info.TargetOffset ≤ k
    · have hvk : v.testBit (k - Info.TargetOffset) = false := by
        apply Nat.testBit_eq_false_of_lt
        exact Nat.lt_of_lt_of_le hv (Nat.pow_le_pow_right (by norm_num) (by omega))
      simp [hvk]
    · simp [hge]
  · intro j hjn
    have hjn2 : ¬ (Fixup.Offset + 0 ≤ j ∧ j < Fixup.Offset + 0 + FalconAsmBackend.NumBytes Info) := by
      omega
    rw [hj j, if_neg hjn2]

/-- Witness of C14 (amended): a 5-bit field that starts at bit 6 and so spans a
byte boundary (`NumBytes` is 2), the value `0x15`, offset 1 of the buffer
`[0x00, 0x81, 0x10, 0xFF]`. -/
theorem C14_patch_any_layout_witness :
    (FalconAsmBackend.patch { Name := "fixup_5_at_6", TargetOffset := 6, TargetSize := 5, Flags := 0 }
      ⟨0, 1, 7⟩ [0x00, 0x81, 0x10, 0xFF] 0x15).Data = [0x00, 0xC1, 0x15, 0xFF] ∧
    littleEndian (FalconAsmBackend.patch
        { Name := "fixup_5_at_6", TargetOffset := 6, TargetSize := 5, Flags := 0 }
        ⟨0, 1, 7⟩ [0x00, 0x81, 0x10, 0xFF] 0x15).Data 1 2 =
      littleEndian [0x00, 0x81, 0x10, 0xFF] 1 2 ||| (0x15 <<< 6) :=
  ⟨by decide,
    (C14_patch_any_layout { Name := "fixup_5_at_6", TargetOffset := 6, TargetSize := 5, Flags := 0 }
      ⟨0, 1, 7⟩ [0x00, 0x81, 0x10, 0xFF] 0x15 (by decide) (by decide) (by decide) (by decide)
      (by decide) (by decide)).2.2.1⟩

/-- The adjuster accepts only fixups of kind `fixup_u8`. -/
theorem FalconAsmBackend.adjustFixupValue_ok_kind (H : Host) (Fixup : MCFixup) (v r : Nat)
    (Ctx : Option MCContext)
    (h : FalconAsmBackend.adjustFixupValue H Fixup v Ctx = Outcome.ok r) :
    Fixup.Kind = Falcon.fixup_u8 H := by
  unfold FalconAsmBackend.adjustFixupValue at h
  split at h
  · simp only at h
    split at h
    · assumption
    · simp at h
  all_goals simp at h

/-- The body of `applyFixup` for the `fixup_u8` entry, any value up to 255 and
an offset inside the buffer: one byte is OR-ed. -/
theorem FalconAsmBackend.patch_u8_inside (Fixup : MCFixup) (Data : List Nat) (v : Nat)
    (ho32 : Fixup.Offset < 2 ^ 32) (ho : Fixup.Offset < Data.length) (hv : v ≤ 255) :
    FalconAsmBackend.patch { Name := "fixup_u8", TargetOffset := 0, TargetSize := 8, Flags := 0 }
        Fixup Data v =
      { Data := Data.set Fixup.Offset ((Data.getD Fixup.Offset 0 ||| v) % 256),
        status := Outcome.ok () } := by
  have hmod : Fixup.Offset % 2 ^ 32 = Fixup.Offset := Nat.mod_eq_of_lt ho32
  have hle : (Fixup.Offset + 1) % 2 ^ 32 ≤ Data.length :=
    Nat.le_trans (Nat.mod_le _ _) ho
  have hm := FalconAsmBackend.mask_u8 v hv
  simp only [FalconAsmBackend.patch, FalconAsmBackend.NumBytes_u8, hmod, hle, if_true,
    FalconAsmBackend.patchLoop, Nat.add_zero, ho, hm]

/-- Claim C15 (the zero short-circuit is a pure optimisation): for every buffer
of bytes, every fixup whose byte span lies inside the buffer and every value,
`applyFixup`, which returns early on the value 0, gives the same buffer and
ends the same way as the variant without the early return, which runs the
shift-and-OR loop for the value 0 as well. -/
theorem C15_zero_shortcut_refines (H : Host) (Fixup : MCFixup) (Data : List Nat) (v : Nat)
    (hb : ∀ b ∈ Data, b < 256) (ho32 : Fixup.Offset < 2 ^ 32)
    (ho : ∀ Info, FalconAsmBackend.getFixupKindInfo H Fixup.Kind = Outcome.ok Info →
      Fixup.Offset + FalconAsmBackend.NumBytes Info ≤ Data.length) :
    FalconAsmBackend.applyFixup H Fixup Data v =
      FalconAsmBackend.applyFixupWithoutEarlyReturn H Fixup Data v := by
  unfold FalconAsmBackend.applyFixup FalconAsmBackend.applyFixupWithoutEarlyReturn
  cases h : FalconAsmBackend.adjustFixupValue H Fixup v (some MCContext.mk) with
  | ok r =>
    have hr : r = v := FalconAsmBackend.adjustFixupValue_ok H Fixup v r _ h
    have hk : Fixup.Kind = Falcon.fixup_u8 H :=
      FalconAsmBackend.adjustFixupValue_ok_kind H Fixup v r _ h
    subst hr
    rcases Nat.eq_zero_or_pos r with h0 | hpos
    · subst h0
      have hinfo := FalconAsmBackend.getFixupKindInfo_u8 H
      rw [← hk] at hinfo
      have hin := ho _ hinfo
      rw [FalconAsmBackend.NumBytes_u8] at hin
      have hlt : Fixup.Offset < Data.length := by omega
      simp only [if_true, hinfo]
      rw [FalconAsmBackend.patch_u8_inside Fixup Data 0 ho32 hlt (by omega), Nat.or_zero,
        Nat.mod_eq_of_lt (FalconAsmBackend.getD_lt Data hb _),
        FalconAsmBackend.set_getD_self Data _ hlt]
    · have hne : r ≠ 0 := by omega
      simp only [hne, if_false]
  | fatalError l m => rfl
  | unreachable m => rfl
  | assertion m => rfl
  | outOfBounds i => rfl

/-- Witness of C15: the value 0 at offset 1 of the buffer `[0x00, 0x01, 0x80]`. -/
theorem C15_zero_shortcut_refines_witness :
    FalconAsmBackend.applyFixup sampleHost ⟨Falcon.fixup_u8 sampleHost, 1, 7⟩
        [0x00, 0x01, 0x80] 0 =
      FalconAsmBackend.applyFixupWithoutEarlyReturn sampleHost
        ⟨Falcon.fixup_u8 sampleHost, 1, 7⟩ [0x00, 0x01, 0x80] 0 :=
  C15_zero_shortcut_refines sampleHost ⟨Falcon.fixup_u8 sampleHost, 1, 7⟩ [0x00, 0x01, 0x80] 0
    (by decide) (by decide)
    (by
      intro Info hInfo
      have h8 := FalconAsmBackend.getFixupKindInfo_u8 sampleHost
      have hI : Info = { Name := "fixup_u8", TargetOffset := 0, TargetSize := 8, Flags := 0 } := by
        have h2 := hInfo.symm.trans h8
        cases h2
        rfl
      subst hI
      decide)

/-- The signed 64-bit copy of the maximum of a width below 64 is the maximum
itself. -/
theorem toInt64_maxUIntN (w : Nat) (hw : w < 64) :
    toInt64 (maxUIntN w) = ((2 ^ w - 1 : Nat) : Int) := by
  have hpow : 2 ^ w ≤ 2 ^ 63 := Nat.pow_le_pow_right (by norm_num) (by omega)
  have hpos : 0 < 2 ^ w := Nat.two_pow_pos w
  have hmod : (2 ^ w - 1) % 2 ^ 64 = 2 ^ w - 1 := Nat.mod_eq_of_lt (by omega)
  have hlt : 2 ^ w - 1 < 2 ^ 63 := by omega
  unfold toInt64 maxUIntN
  rw [hmod, if_pos hlt]

/-- The text of the diagnostic for a width below 64. -/
theorem adjust.diagnostic_text (w : Nat) (Description : String) (hw : w < 64) :
    adjust.diagnostic w Description =
      "out of range " ++ Description ++ " (expected an integer in the range 0 to "
        ++ toString (2 ^ w - 1) ++ ")" := by
  unfold adjust.diagnostic
  simp only [toInt64_maxUIntN w hw, String.append_assoc]
  rfl

/-- Claim C16: for every width `1 <= w <= 64` and every 64-bit value `v`,
`assertUnsignedWidth` fails exactly when `v > 2 ^ w - 1`, with or without a
context; whenever it fails, the maximum it prints, `maxUIntN(w)` stored in a
signed 64-bit integer, is exactly `2 ^ w - 1`, and the text is "out of range
<description> (expected an integer in the range 0 to <2^w - 1>)". -/
theorem C16_assertUnsignedWidth_max (w v : Nat) (Description : String) (Fixup : MCFixup)
    (c : MCContext) (hw1 : 1 ≤ w) (hw : w ≤ 64) (hv : v < 2 ^ 64) :
    (adjust.assertUnsignedWidth w v Description Fixup (some c) ≠ Outcome.ok ()
      ↔ 2 ^ w - 1 < v) ∧
    (adjust.assertUnsignedWidth w v Description Fixup none ≠ Outcome.ok ()
      ↔ 2 ^ w - 1 < v) ∧
    (2 ^ w - 1 < v →
      toInt64 (maxUIntN w) = ((2 ^ w - 1 : Nat) : Int) ∧
      adjust.assertUnsignedWidth w v Description Fixup (some c) =
        Outcome.fatalError Fixup.Loc
          ("out of range " ++ Description ++ " (expected an integer in the range 0 to "
            ++ toString (2 ^ w - 1) ++ ")") ∧
      adjust.assertUnsignedWidth w v Description Fixup none =
        Outcome.unreachable
          ("out of range " ++ Description ++ " (expected an integer in the range 0 to "
            ++ toString (2 ^ w - 1) ++ ")")) := by
  have hpos : 0 < 2 ^ w := Nat.two_pow_pos w
  have hfail : 2 ^ w - 1 < v →
      toInt64 (maxUIntN w) = ((2 ^ w - 1 : Nat) : Int) ∧
      adjust.assertUnsignedWidth w v Description Fixup (some c) =
        Outcome.fatalError Fixup.Loc
          ("out of range " ++ Description ++ " (expected an integer in the range 0 to "
            ++ toString (2 ^ w - 1) ++ ")") ∧
      adjust.assertUnsignedWidth w v Description Fixup none =
        Outcome.unreachable
          ("out of range " ++ Description ++ " (expected an integer in the range 0 to "
            ++ toString (2 ^ w - 1) ++ ")") := by
    intro hgt
    have hge : 2 ^ w ≤ v := by omega
    have hw63 : w < 64 := by
      by_contra hc
      have h64 : w = 64 := by omega
      subst h64
      omega
    rw [adjust.assertUnsignedWidth_some w v Description Fixup c hge,
      adjust.assertUnsignedWidth_none w v Description Fixup hge,
      adjust.diagnostic_text w Description hw63]
    exact ⟨toInt64_maxUIntN w hw63, rfl, rfl⟩
  refine ⟨?_, ?_, hfail⟩
  · constructor
    · intro hne
      by_contra hc
      exact hne (adjust.assertUnsignedWidth_fits w v Description Fixup _ (by omega))
    · intro hgt
      rw [(hfail hgt).2.1]
      intro h
      cases h
  · constructor
    · intro hne
      by_contra hc
      exact hne (adjust.assertUnsignedWidth_fits w v Description Fixup _ (by omega))
    · intro hgt
      rw [(hfail hgt).2.2]
      intro h
      cases h

/-- Witness of C16: width 12 and the value 4096. -/
theorem C16_assertUnsignedWidth_max_witness :
    adjust.assertUnsignedWidth 12 4096 "immediate" ⟨128, 0, 7⟩ (some MCContext.mk) =
      Outcome.fatalError 7
        ("out of range " ++ "immediate" ++ " (expected an integer in the range 0 to "
          ++ toString (2 ^ 12 - 1) ++ ")") :=
  ((C16_assertUnsignedWidth_max 12 4096 "immediate" ⟨128, 0, 7⟩ MCContext.mk (by decide)
    (by decide) (by decide)).2.2 (by decide)).2.1

/-- Rounding up a division by eight. -/
theorem ceil_div_eight (n : Nat) : ⌈(n : ℚ) / 8⌉₊ = (n + 7) / 8 := by
  apply le_antisymm
  · rw [Nat.ceil_le]
    have h : n ≤ 8 * ((n + 7) / 8) := by omega
    have h2 : (n : ℚ) ≤ 8 * (((n + 7) / 8 : ℕ) : ℚ) := by exact_mod_cast h
    rw [div_le_iff₀ (by norm_num)]
    linarith
  · by_cases h0 : (n + 7) / 8 = 0
    · omega
    · have hlt : (n + 7) / 8 - 1 < ⌈(n : ℚ) / 8⌉₊ := by
        rw [Nat.lt_ceil]
        have h : 8 * ((n + 7) / 8 - 1) < n := by omega
        have h2 : (8 : ℚ) * (((n + 7) / 8 - 1 : ℕ) : ℚ) < n := by exact_mod_cast h
        rw [lt_div_iff₀ (by norm_num)]
        linarith
      omega

/-- Claim C17: for every kind info the byte count computed by `applyFixup`,
`(NumBits / 8) + ((NumBits % 8) == 0 ? 0 : 1)` with
`NumBits = TargetSize + TargetOffset` (an `unsigned` sum), is
`ceil(NumBits / 8)`; when the sum does not wrap this is
`ceil((TargetOffset + TargetSize) / 8)`. For `fixup_u8` the count is exactly 1,
and `applyFixup` with a non-zero accepted value stores to exactly one byte, the
one at the offset of the fixup. -/
theorem C17_numBytes_ceil (H : Host) (Info : MCFixupKindInfo) :
    FalconAsmBackend.NumBytes Info =
      ⌈(((Info.TargetSize + Info.TargetOffset) % 2 ^ 32 : Nat) : ℚ) / 8⌉₊ ∧
    (Info.TargetSize + Info.TargetOffset < 2 ^ 32 →
      FalconAsmBackend.NumBytes Info =
        ⌈((Info.TargetOffset + Info.TargetSize : Nat) : ℚ) / 8⌉₊) ∧
    (∃ Info8, FalconAsmBackend.getFixupKindInfo H (Falcon.fixup_u8 H) = Outcome.ok Info8 ∧
      FalconAsmBackend.NumBytes Info8 = 1) ∧
    (∀ (o : Nat) (l : SMLoc) (Data : List Nat) (v : Nat),
      o < 2 ^ 32 → o < Data.length → 1 ≤ v → v ≤ 255 →
      FalconAsmBackend.applyFixup H ⟨Falcon.fixup_u8 H, o, l⟩ Data v =
        { Data := Data.set o ((Data.getD o 0 ||| v) % 256), status := Outcome.ok () }) := by
  have hmain : ∀ n : Nat, (n / 8) + (if n % 8 = 0 then 0 else 1) = ⌈(n : ℚ) / 8⌉₊ := by
    intro n
    rw [ceil_div_eight]
    split <;> omega
  refine ⟨hmain _, ?_, ⟨_, FalconAsmBackend.getFixupKindInfo_u8 H, FalconAsmBackend.NumBytes_u8⟩,
    ?_⟩
  · intro hlt
    have hmod : (Info.TargetSize + Info.TargetOffset) % 2 ^ 32 =
        Info.TargetOffset + Info.TargetSize := by
      rw [Nat.mod_eq_of_lt hlt, Nat.add_comm]
    have h := hmain ((Info.TargetSize + Info.TargetOffset) % 2 ^ 32)
    rw [hmod] at h
    unfold FalconAsmBackend.NumBytes
    simp only [hmod]
    exact h
  · intro o l Data v ho32 ho hv1 hv
    exact FalconAsmBackend.applyFixup_u8_inside H o l Data v ho32 ho hv1 hv

/-- Evaluation for C18 at the failing input: a `fixup_u8` fixup at byte offset
`2 ^ 32 - 1`, the value 1 and a buffer of four bytes. The bounds check computed
in `unsigned` passes (`Offset + NumBytes` wraps to 0), and the index
`Offset + 0` of the store is `4294967295`, not below the length 4: the call
ends in a store outside the buffer. -/
theorem C18_index_wraps :
    (4294967295 + FalconAsmBackend.NumBytes
      { Name := "fixup_u8", TargetOffset := 0, TargetSize := 8, Flags := 0 }) % 2 ^ 32
      ≤ [0x00, 0x00, 0x00, 0x00].length ∧
    ¬ ((4294967295 + 0) % 2 ^ 32 < [0x00, 0x00, 0x00, 0x00].length) ∧
    FalconAsmBackend.adjustFixupValue sampleHost ⟨Falcon.fixup_u8 sampleHost, 4294967295, 7⟩ 1
      (some MCContext.mk) = Outcome.ok 1 ∧
    FalconAsmBackend.applyFixup sampleHost ⟨Falcon.fixup_u8 sampleHost, 4294967295, 7⟩
        [0x00, 0x00, 0x00, 0x00] 1 =
      { Data := [0x00, 0x00, 0x00, 0x00], status := Outcome.outOfBounds 4294967295 } := by
  decide

/-- Claim C19: applying fixups commutes and never clears a bit. For a buffer of
bytes and two `fixup_u8` fixups inside it, at equal or at distinct offsets,
with values accepted by the adjuster, the first then the second gives the same
result as the second then the first, both orders return normally, and every
bit set before a call is set after it. -/
theorem C19_apply_commutes (H : Host) (o1 o2 : Nat) (l1 l2 : SMLoc) (Data : List Nat)
    (v1 v2 : Nat) (hb : ∀ b ∈ Data, b < 256) (ho1 : o1 < 2 ^ 32) (ho2 : o2 < 2 ^ 32)
    (hi1 : o1 + 1 ≤ Data.length) (hi2 : o2 + 1 ≤ Data.length) (hv1 : v1 ≤ 255)
    (hv2 : v2 ≤ 255) :
    FalconAsmBackend.applyFixup H ⟨Falcon.fixup_u8 H, o2, l2⟩
        (FalconAsmBackend.applyFixup H ⟨Falcon.fixup_u8 H, o1, l1⟩ Data v1).Data v2 =
      FalconAsmBackend.applyFixup H ⟨Falcon.fixup_u8 H, o1, l1⟩
        (FalconAsmBackend.applyFixup H ⟨Falcon.fixup_u8 H, o2, l2⟩ Data v2).Data v1 ∧
    (FalconAsmBackend.applyFixup H ⟨Falcon.fixup_u8 H, o2, l2⟩
        (FalconAsmBackend.applyFixup H ⟨Falcon.fixup_u8 H, o1, l1⟩ Data v1).Data v2).status
      = Outcome.ok () ∧
    (∀ j k : Nat, (Data.getD j 0).testBit k = true →
      ((FalconAsmBackend.applyFixup H ⟨Falcon.fixup_u8 H, o1, l1⟩ Data v1).Data.getD j 0).testBit k
        = true) := by
  have hlt1 : o1 < Data.length := by omega
  have hlt2 : o2 < Data.length := by omega
  have hx1 := FalconAsmBackend.or_lt_byte _ _ (FalconAsmBackend.getD_lt Data hb o1) hv1
  have hx2 := FalconAsmBackend.or_lt_byte _ _ (FalconAsmBackend.getD_lt Data hb o2) hv2
  have hA := FalconAsmBackend.applyFixup_u8_bytes H o1 l1 Data v1 hb ho1 hlt1 hv1
  have hB := FalconAsmBackend.applyFixup_u8_bytes H o2 l2 Data v2 hb ho2 hlt2 hv2
  have hAB := FalconAsmBackend.applyFixup_u8_bytes H o2 l2 (Data.set o1 (Data.getD o1 0 ||| v1)) v2
    (FalconAsmBackend.set_bytes Data hb o1 _ hx1) ho2 (by simpa using hlt2) hv2
  have hBA := FalconAsmBackend.applyFixup_u8_bytes H o1 l1 (Data.set o2 (Data.getD o2 0 ||| v2)) v1
    (FalconAsmBackend.set_bytes Data hb o2 _ hx2) ho1 (by simpa using hlt1) hv1
  rw [hA, hB]
  simp only
  rw [hAB, hBA]
  refine ⟨?_, rfl, ?_⟩
  · rcases Nat.decEq o1 o2 with hne | heq
    · have hne2 : o2 ≠ o1 := fun h => hne h.symm
      have hg1 : (Data.set o1 (Data.getD o1 0 ||| v1)).getD o2 0 = Data.getD o2 0 := by
        simp only [List.getD_eq_getElem?_getD, List.getElem?_set_ne hne]
      have hg2 : (Data.set o2 (Data.getD o2 0 ||| v2)).getD o1 0 = Data.getD o1 0 := by
        simp only [List.getD_eq_getElem?_getD, List.getElem?_set_ne hne2]
      rw [hg1, hg2, List.set_comm _ _ Data hne]
    · subst heq
      rw [FalconAsmBackend.getD_set_self Data o1 _ hlt1,
        FalconAsmBackend.getD_set_self Data o1 _ hlt1, List.set_set, List.set_set]
      have hor : (Data.getD o1 0 ||| v1) ||| v2 = (Data.getD o1 0 ||| v2) ||| v1 := by
        rw [Nat.or_assoc, Nat.or_comm v1 v2, ← Nat.or_assoc]
      rw [hor]
  · intro j k hset
    show ((Data.set o1 (Data.getD o1 0 ||| v1)).getD j 0).testBit k = true
    rcases Nat.decEq o1 j with hne | heq
    · have hg : (Data.set o1 (Data.getD o1 0 ||| v1)).getD j 0 = Data.getD j 0 := by
        simp only [List.getD_eq_getElem?_getD, List.getElem?_set_ne hne]
      rw [hg]
      exact hset
    · subst heq
      rw [FalconAsmBackend.getD_set_self Data o1 _ hlt1, Nat.testBit_or, hset]
      rfl

/-- Witness of C19: `0x3C` at offset 1 and `0x41` at offset 1 (equal offsets) of
the buffer `[0x00, 0x01, 0x80]`. -/
theorem C19_apply_commutes_witness :
    FalconAsmBackend.applyFixup sampleHost ⟨Falcon.fixup_u8 sampleHost, 1, 9⟩
        (FalconAsmBackend.applyFixup sampleHost ⟨Falcon.fixup_u8 sampleHost, 1, 7⟩
          [0x00, 0x01, 0x80] 0x3C).Data 0x41 =
      FalconAsmBackend.applyFixup sampleHost ⟨Falcon.fixup_u8 sampleHost, 1, 7⟩
        (FalconAsmBackend.applyFixup sampleHost ⟨Falcon.fixup_u8 sampleHost, 1, 9⟩
          [0x00, 0x01, 0x80] 0x41).Data 0x3C :=
  (C19_apply_commutes sampleHost 1 1 7 9 [0x00, 0x01, 0x80] 0x3C 0x41 (by decide) (by decide)
    (by decide) (by decide) (by decide) (by decide) (by decide)).1

/-- The loop ends normally or at a store outside the buffer, never in a
diagnostic, an `llvm_unreachable` or an assertion. -/
theorem FalconAsmBackend.patchLoop_status (V O : Nat) :
    ∀ (n i : Nat) (Data : List Nat),
      (FalconAsmBackend.patchLoop V O n i Data).status = Outcome.ok () ∨
      ∃ idx, (FalconAsmBackend.patchLoop V O n i Data).status = Outcome.outOfBounds idx := by
  intro n
  induction n with
  | zero =>
    intro i Data
    exact Or.inl rfl
  | succ n ih =>
    intro i Data
    unfold FalconAsmBackend.patchLoop
    simp only
    split
    · exact ih _ _
    · exact Or.inr ⟨_, rfl⟩

/-- When the body of `applyFixup` ends in an assertion, the buffer is as before;
it never ends in a diagnostic or an `llvm_unreachable`. -/
theorem FalconAsmBackend.patch_failure (Info : MCFixupKindInfo) (Fixup : MCFixup)
    (Data : List Nat) (v : Nat) :
    (∀ Loc Msg, (FalconAsmBackend.patch Info Fixup Data v).status ≠ Outcome.fatalError Loc Msg) ∧
    (∀ Msg, (FalconAsmBackend.patch Info Fixup Data v).status ≠ Outcome.unreachable Msg) ∧
    (∀ Msg, (FalconAsmBackend.patch Info Fixup Data v).status = Outcome.assertion Msg →
      (FalconAsmBackend.patch Info Fixup Data v).Data = Data) := by
  unfold FalconAsmBackend.patch
  simp only
  split
  · rename_i hchk
    have hst := FalconAsmBackend.patchLoop_status ((v <<< Info.TargetOffset) % 2 ^ 64)
      (Fixup.Offset % 2 ^ 32) (FalconAsmBackend.NumBytes Info) 0 Data
    refine ⟨?_, ?_, ?_⟩
    · intro Loc Msg h
      rcases hst with h1 | ⟨idx, h1⟩ <;> rw [h1] at h <;> cases h
    · intro Msg h
      rcases hst with h1 | ⟨idx, h1⟩ <;> rw [h1] at h <;> cases h
    · intro Msg h
      rcases hst with h1 | ⟨idx, h1⟩ <;> rw [h1] at h <;> cases h
  · refine ⟨?_, ?_, ?_⟩
    · intro Loc Msg h
      cases h
    · intro Msg h
      cases h
    · intro Msg _
      rfl

/-- When `applyFixup` ends in a diagnostic, an `llvm_unreachable` or an
assertion, the buffer is as before the call. -/
theorem FalconAsmBackend.applyFixup_failure (H : Host) (Fixup : MCFixup) (Data : List Nat)
    (v : Nat) (hnot : (FalconAsmBackend.applyFixup H Fixup Data v).status ≠ Outcome.ok ())
    (hin : ∀ idx, (FalconAsmBackend.applyFixup H Fixup Data v).status ≠ Outcome.outOfBounds idx) :
    (FalconAsmBackend.applyFixup H Fixup Data v).Data = Data := by
  unfold FalconAsmBackend.applyFixup at hnot hin ⊢
  cases h : FalconAsmBackend.adjustFixupValue H Fixup v (some MCContext.mk) with
  | ok r =>
    rw [h] at hnot hin
    simp only at hnot hin ⊢
    by_cases h0 : r = 0
    · simp only [h0, if_true]
    · simp only [h0, if_false] at hnot hin ⊢
      cases hi : FalconAsmBackend.getFixupKindInfo H Fixup.Kind with
      | ok Info =>
        rw [hi] at hnot hin
        simp only at hnot hin ⊢
        obtain ⟨hf, hu, ha⟩ := FalconAsmBackend.patch_failure Info Fixup Data r
        cases hs : (FalconAsmBackend.patch Info Fixup Data r).status with
        | ok u => exact absurd hs hnot
        | fatalError Loc Msg => exact absurd hs (hf Loc Msg)
        | unreachable Msg => exact absurd hs (hu Msg)
        | assertion Msg => exact ha Msg hs
        | outOfBounds idx => exact absurd hs (hin idx)
      | fatalError l m => rfl
      | unreachable m => rfl
      | assertion m => rfl
      | outOfBounds i => rfl
  | fatalError l m => rfl
  | unreachable m => rfl
  | assertion m => rfl
  | outOfBounds i => rfl

/-- Claim C20 (atomicity on error): for every buffer, every fixup and every
value, when `applyFixup` ends in a located diagnostic (the range error of the
adjuster), in `llvm_unreachable` (the unhandled kind) or in an assertion (the
bounds check, or "Invalid kind!"), the buffer is as before the call: the
adjuster and the bounds check run before the first store. The three failures
are reached: a `fixup_u8` value above 255 gives the range error, a fixup the
adjuster calls unhandled gives "unhandled fixup", and a non-zero accepted value
at an offset beyond the buffer gives "Invalid fixup offset!". -/
theorem C20_apply_atomic (H : Host) (Fixup : MCFixup) (Data : List Nat) (v : Nat) :
    (∀ Loc Msg, (FalconAsmBackend.applyFixup H Fixup Data v).status
        = Outcome.fatalError Loc Msg →
      (FalconAsmBackend.applyFixup H Fixup Data v).Data = Data) ∧
    (∀ Msg, (FalconAsmBackend.applyFixup H Fixup Data v).status = Outcome.unreachable Msg →
      (FalconAsmBackend.applyFixup H Fixup Data v).Data = Data) ∧
    (∀ Msg, (FalconAsmBackend.applyFixup H Fixup Data v).status = Outcome.assertion Msg →
      (FalconAsmBackend.applyFixup H Fixup Data v).Data = Data) ∧
    (255 < v →
      FalconAsmBackend.applyFixup H ⟨Falcon.fixup_u8 H, Fixup.Offset, Fixup.Loc⟩ Data v =
        { Data := Data,
          status := Outcome.fatalError Fixup.Loc
            "out of range immediate (expected an integer in the range 0 to 255)" }) ∧
    (FalconAsmBackend.adjustFixupValue H Fixup v (some MCContext.mk) =
        Outcome.unreachable "unhandled fixup" →
      FalconAsmBackend.applyFixup H Fixup Data v =
        { Data := Data, status := Outcome.unreachable "unhandled fixup" }) ∧
    (1 ≤ v → v ≤ 255 → Fixup.Offset + 1 < 2 ^ 32 → Data.length < Fixup.Offset + 1 →
      FalconAsmBackend.applyFixup H ⟨Falcon.fixup_u8 H, Fixup.Offset, Fixup.Loc⟩ Data v =
        { Data := Data, status := Outcome.assertion "Invalid fixup offset!" }) := by
  refine ⟨?_, ?_, ?_, ?_, ?_, ?_⟩
  · intro Loc Msg h
    apply FalconAsmBackend.applyFixup_failure
    · rw [h]
      intro hc
      cases hc
    · intro idx
      rw [h]
      intro hc
      cases hc
  · intro Msg h
    apply FalconAsmBackend.applyFixup_failure
    · rw [h]
      intro hc
      cases hc
    · intro idx
      rw [h]
      intro hc
      cases hc
  · intro Msg h
    apply FalconAsmBackend.applyFixup_failure
    · rw [h]
      intro hc
      cases hc
    · intro idx
      rw [h]
      intro hc
      cases hc
  · intro hv
    unfold FalconAsmBackend.applyFixup
    rw [FalconAsmBackend.adjustFixupValue_u8_some H _ _ v _ hv]
  · intro h
    unfold FalconAsmBackend.applyFixup
    rw [h]
  · intro hv1 hv ho32 hlen
    exact FalconAsmBackend.applyFixup_u8_beyond H _ _ Data v ho32 hlen hv1 hv

/-- Witness of C20 on the sample host and the buffer `[0x00, 0x01]`: the value
256 on `fixup_u8`, the value 2 on the inherited kind 1 and the value `0x3C` at
offset 2 all fail and leave the buffer as it was. -/
theorem C20_apply_atomic_witness :
    FalconAsmBackend.applyFixup sampleHost ⟨Falcon.fixup_u8 sampleHost, 0, 7⟩ [0x00, 0x01] 256 =
      { Data := [0x00, 0x01],
        status := Outcome.fatalError 7
          "out of range immediate (expected an integer in the range 0 to 255)" } ∧
    FalconAsmBackend.applyFixup sampleHost ⟨1, 0, 7⟩ [0x00, 0x01] 2 =
      { Data := [0x00, 0x01], status := Outcome.unreachable "unhandled fixup" } ∧
    FalconAsmBackend.applyFixup sampleHost ⟨Falcon.fixup_u8 sampleHost, 2, 7⟩ [0x00, 0x01] 0x3C =
      { Data := [0x00, 0x01], status := Outcome.assertion "Invalid fixup offset!" } :=
  ⟨(C20_apply_atomic sampleHost ⟨128, 0, 7⟩ [0x00, 0x01] 256).2.2.2.1 (by decide),
    (C20_apply_atomic sampleHost ⟨1, 0, 7⟩ [0x00, 0x01] 2).2.2.2.2.1
      (FalconAsmBackend.adjustFixupValue_inherited sampleHost ⟨1, 0, 7⟩ 2 _ _ (by decide) rfl),
    (C20_apply_atomic sampleHost ⟨128, 2, 7⟩ [0x00, 0x01] 0x3C).2.2.2.2.2 (by decide)
      (by decide) (by decide) (by decide)⟩
